import Mathlib

/-!
Shallow embedding of the ETL core of the facolos data pipeline repository:
the MISA CRM extractor (token lifecycle, request retry, pagination,
incremental filtering), the flattening transformers for MISA sale orders and
TikTok Shop orders, the staging loaders, and the production orchestrator.

Python dictionaries and pandas DataFrame rows are modelled as association
lists from column names to field values; network and database effects are
modelled as explicit oracle parameters, and call counts are returned
alongside results so that "performs exactly one call" style properties can
be stated.
-/

/-- Field value of a record or DataFrame cell.  Python `None` / pandas `NaN`
and `NaT` are `null`; numeric values are collapsed to `Int` (none of the
properties under study depends on fractional values); dates are modelled as
integer timestamps. -/
inductive FieldVal where
  | null
  | str (s : String)
  | num (n : Int)
  | bool (b : Bool)
  deriving DecidableEq, Repr

/-- Model of a Python dict / one DataFrame row: an association list from
column name to value. -/
abbrev Row := List (String × FieldVal)

/-- First value stored under key `k`, if any (dict lookup). -/
def lookupField (k : String) : Row → Option FieldVal
  | [] => none
  | kv :: rest => if kv.1 = k then some kv.2 else lookupField k rest

/-- Python `d.get(k)`: the stored value, or `None` when the key is absent. -/
def dictGet (k : String) (d : Row) : FieldVal :=
  (lookupField k d).getD FieldVal.null

/-- Pandas column assignment `df[k] = v` restricted to one row: if the key is
present its value is replaced (in place), otherwise the key is appended at
the end. -/
def setColumn (k : String) (v : FieldVal) (row : Row) : Row :=
  if row.any (fun kv => kv.1 = k) then
    row.map (fun kv => if kv.1 = k then (kv.1, v) else kv)
  else row ++ [(k, v)]

namespace MisaTransformer

/-! Embedding of `src/src/transformers/misa_crm_transformer.py`, method
`transform_sale_orders_flattened` (lines 112-237), together with the
DataFrame-level type-coercion passes and `_add_etl_metadata`. -/
/-- One raw MISA sale order as received from the API: the scalar fields of
the order dict (everything except the nested key), and the value of the
nested key `sale_order_product_mappings` (a list of item dicts, empty when
the key is absent, matching `order.get(key, [])`). -/
structure SaleOrder where
  main : List (String × FieldVal)
  productMappings : List (List (String × FieldVal))

/-- Fields written with value NULL into the single row produced for an order
without product mappings (source lines 164-169). -/
def itemNullFields : List String :=
  ["id", "product_code", "unit", "price", "amount", "total",
   "tax_percent", "discount_percent", "stock_name", "description"]

/-- Re-key every field of a dict under the constant prefix `p`. -/
def prefixFields (p : String) (fields : List (String × FieldVal)) : Row :=
  fields.map (fun kv => (p ++ kv.1, kv.2))

/-- Flattening of one sale order (the body of the `for order in
sale_orders_data` loop, source lines 130-175): one row per product mapping
carrying the parent fields under `order_` and the item fields under `item_`,
or a single row with NULL item fields when there are no mappings. -/
def flattenSaleOrder (o : SaleOrder) : List Row :=
  if o.productMappings.isEmpty then
    [prefixFields "order_" o.main
      ++ itemNullFields.map (fun f => ("item_" ++ f, FieldVal.null))
      ++ [("has_multiple_items", FieldVal.bool false),
          ("total_items_in_order", FieldVal.num 0)]]
  else
    o.productMappings.map (fun item =>
      prefixFields "order_" o.main ++ prefixFields "item_" item
        ++ [("has_multiple_items",
             FieldVal.bool (decide (1 < o.productMappings.length))),
            ("total_items_in_order", FieldVal.num o.productMappings.length)])

/-- Elementwise model of `pd.to_numeric(col, errors='coerce')`: parse
failures become the missing-value marker instead of raising. -/
def toNumericVal : FieldVal → FieldVal
  | FieldVal.null => FieldVal.null
  | FieldVal.num n => FieldVal.num n
  | FieldVal.bool b => FieldVal.num (if b then 1 else 0)
  | FieldVal.str s =>
      match s.toInt? with
      | some n => FieldVal.num n
      | none => FieldVal.null

/-- Elementwise model of `pd.to_datetime(col, errors='coerce')`, with the
date parser supplied as an oracle (`parseDate`); unparseable values become
the missing-value marker. -/
def toDatetimeVal (parseDate : String → Option Int) : FieldVal → FieldVal
  | FieldVal.null => FieldVal.null
  | FieldVal.num n => FieldVal.num n
  | FieldVal.bool _ => FieldVal.null
  | FieldVal.str s =>
      match parseDate s with
      | some t => FieldVal.num t
      | none => FieldVal.null

/-- Elementwise model of `col.astype(bool, errors='ignore')`, with missing
values propagated. -/
def toBoolVal : FieldVal → FieldVal
  | FieldVal.null => FieldVal.null
  | FieldVal.bool b => FieldVal.bool b
  | FieldVal.num n => FieldVal.bool (decide (n ≠ 0))
  | FieldVal.str s => FieldVal.bool (!s.isEmpty)

/-- Column set of a DataFrame built from a list of row dicts: the union of
the row keys. -/
def dfColumns (df : List Row) : List String :=
  (df.flatMap (fun r => r.map Prod.fst)).dedup

/-- Apply an elementwise coercion to the cells of one column within one
row (cells of other columns are untouched; a row that lacks the key keeps
its missing value). -/
def applyColToRow (f : FieldVal → FieldVal) (c : String) (row : Row) : Row :=
  row.map (fun kv => if kv.1 = c then (kv.1, f kv.2) else kv)

/-- The per-column guard `if col in df.columns:` followed by the column-wide
assignment `df[col] = coerce(df[col])`. -/
def applyColumn (f : FieldVal → FieldVal) (c : String) (df : List Row) :
    List Row :=
  if c ∈ dfColumns df then df.map (applyColToRow f c) else df

/-- One `for col in cols:` coercion pass over the DataFrame. -/
def applyColumns (f : FieldVal → FieldVal) (cols : List String)
    (df : List Row) : List Row :=
  cols.foldl (fun d c => applyColumn f c d) df

/-- Order-level numeric columns (source lines 184-189). -/
def orderNumericColumns : List String :=
  ["order_sale_order_amount", "order_total_summary", "order_tax_summary",
   "order_discount_summary", "order_to_currency_summary",
   "order_total_receipted_amount", "order_balance_receipt_amount",
   "order_invoiced_amount", "order_un_invoiced_amount",
   "order_exchange_rate"]

/-- Item-level numeric columns (source lines 196-203). -/
def itemNumericColumns : List String :=
  ["item_price", "item_amount", "item_usage_unit_amount",
   "item_usage_unit_price", "item_total", "item_to_currency",
   "item_discount", "item_tax", "item_discount_percent",
   "item_price_after_tax", "item_price_after_discount",
   "item_to_currency_after_discount", "item_height", "item_width",
   "item_length", "item_radius", "item_mass", "item_exist_amount",
   "item_shipping_amount", "item_ratio", "item_custom_field1",
   "item_produced_quantity", "item_quantity_ordered"]

/-- Order-level date columns (source lines 210-214). -/
def orderDateColumns : List String :=
  ["order_sale_order_date", "order_due_date", "order_book_date",
   "order_deadline_date", "order_delivery_date", "order_paid_date",
   "order_invoice_date", "order_production_date"]

/-- Item-level date columns (source line 220). -/
def itemDateColumns : List String := ["item_expire_date"]

/-- Boolean columns (source line 227). -/
def misaBooleanColumns : List String :=
  ["order_is_use_currency", "item_is_promotion"]

/-- Model of `_add_etl_metadata` (source lines 37-53): the four lineage
columns assigned on the whole DataFrame, applied to one row.  `now` is the
transformation wall-clock instant. -/
def addEtlMetadata (batchId : String) (now : Int) (row : Row) : Row :=
  setColumn "etl_source" (FieldVal.str "misa_crm_api")
    (setColumn "etl_updated_at" (FieldVal.num now)
      (setColumn "etl_created_at" (FieldVal.num now)
        (setColumn "etl_batch_id" (FieldVal.str batchId) row)))

/-- Embedding of `transform_sale_orders_flattened` (source lines 112-237):
early return on empty input, flattening loop, empty-DataFrame guard, the
five coercion passes, and the ETL metadata stamping. -/
def transform_sale_orders_flattened (parseDate : String → Option Int)
    (batchId : String) (now : Int) (orders : List SaleOrder) : List Row :=
  if orders.isEmpty then []
  else
    let flattened := orders.flatMap flattenSaleOrder
    if flattened.isEmpty then flattened
    else
      let df1 := applyColumns toNumericVal orderNumericColumns flattened
      let df2 := applyColumns toNumericVal itemNumericColumns df1
      let df3 := applyColumns (toDatetimeVal parseDate) orderDateColumns df2
      let df4 := applyColumns (toDatetimeVal parseDate) itemDateColumns df3
      let df5 := applyColumns toBoolVal misaBooleanColumns df4
      df5.map (addEtlMetadata batchId now)

/-- Per-row form of one `for col in cols:` coercion pass. -/
def coerceFold (f : FieldVal → FieldVal) (cols : List String) (row : Row) :
    Row :=
  cols.foldl (fun r c => applyColToRow f c r) row

/-- Per-row form of the five coercion passes of
`transform_sale_orders_flattened`, in source order. -/
def coerceRow (parseDate : String → Option Int) (r : Row) : Row :=
  coerceFold toBoolVal misaBooleanColumns
    (coerceFold (toDatetimeVal parseDate) itemDateColumns
      (coerceFold (toDatetimeVal parseDate) orderDateColumns
        (coerceFold toNumericVal itemNumericColumns
          (coerceFold toNumericVal orderNumericColumns r))))

end MisaTransformer

namespace TikTokTransformer

/-! Embedding of `src/src/transformers/tiktok_shop_transformer.py`
(`transform_orders_to_dataframe` and its extraction helpers, lines 22-195). -/
/-- One raw TikTok Shop order line item: the scalar fields of the item dict,
the nested `sku_info` dict, and `sku_info.sales_attributes` (a list of
dicts, empty when absent). -/
structure TikTokItem where
  fields : List (String × FieldVal)
  skuInfo : List (String × FieldVal)
  salesAttributes : List (List (String × FieldVal))

/-- One raw TikTok Shop order: scalar top-level fields, the nested
`order_amount` and `recipient_address` dicts (empty when absent, matching
`order.get(key, {})`), and the `line_items` list (empty when absent). -/
structure TikTokOrder where
  fields : List (String × FieldVal)
  orderAmount : List (String × FieldVal)
  recipientAddress : List (String × FieldVal)
  lineItems : List TikTokItem

/-- Model of `_safe_float` (source lines 179-186): `None` and the empty
string map to `None`; a parse failure maps to `None` instead of raising.
Numeric values are collapsed to `Int` as everywhere in this embedding. -/
def safeFloat : FieldVal → FieldVal
  | FieldVal.null => FieldVal.null
  | FieldVal.num n => FieldVal.num n
  | FieldVal.bool b => FieldVal.num (if b then 1 else 0)
  | FieldVal.str s =>
      if s.isEmpty then FieldVal.null
      else
        match s.toInt? with
        | some n => FieldVal.num n
        | none => FieldVal.null

/-- Model of `_safe_int` (source lines 188-195), same shape as
`safeFloat`. -/
def safeInt : FieldVal → FieldVal
  | FieldVal.null => FieldVal.null
  | FieldVal.num n => FieldVal.num n
  | FieldVal.bool b => FieldVal.num (if b then 1 else 0)
  | FieldVal.str s =>
      if s.isEmpty then FieldVal.null
      else
        match s.toInt? with
        | some n => FieldVal.num n
        | none => FieldVal.null

/-- Embedding of `_extract_order_info` (source lines 75-110). -/
def extractOrderInfo (o : TikTokOrder) : Row :=
  [("order_id", dictGet "order_id" o.fields),
   ("order_status", dictGet "order_status" o.fields),
   ("buyer_message", dictGet "buyer_message" o.fields),
   ("cancel_reason", dictGet "cancel_reason" o.fields),
   ("cancel_user", dictGet "cancel_user" o.fields),
   ("collection_time", dictGet "collection_time" o.fields),
   ("create_time", dictGet "create_time" o.fields),
   ("delivery_due_time", dictGet "delivery_due_time" o.fields),
   ("delivery_time", dictGet "delivery_time" o.fields),
   ("fulfillment_type", dictGet "fulfillment_type" o.fields),
   ("order_line_type", dictGet "order_line_type" o.fields),
   ("payment_method", dictGet "payment_method" o.fields),
   ("payment_method_name", dictGet "payment_method_name" o.fields),
   ("remark", dictGet "remark" o.fields),
   ("request_cancel_reason", dictGet "request_cancel_reason" o.fields),
   ("split_or_combine_tag", dictGet "split_or_combine_tag" o.fields),
   ("update_time", dictGet "update_time" o.fields),
   ("warehouse_id", dictGet "warehouse_id" o.fields),
   ("currency", dictGet "currency" o.orderAmount),
   ("original_shipping_fee",
    safeFloat (dictGet "original_shipping_fee" o.orderAmount)),
   ("original_total_product_price",
    safeFloat (dictGet "original_total_product_price" o.orderAmount)),
   ("seller_discount", safeFloat (dictGet "seller_discount" o.orderAmount)),
   ("shipping_fee", safeFloat (dictGet "shipping_fee" o.orderAmount)),
   ("shipping_fee_platform_discount",
    safeFloat (dictGet "shipping_fee_platform_discount" o.orderAmount)),
   ("shipping_fee_seller_discount",
    safeFloat (dictGet "shipping_fee_seller_discount" o.orderAmount)),
   ("subtotal_after_seller_discounts",
    safeFloat (dictGet "subtotal_after_seller_discounts" o.orderAmount)),
   ("tax_amount", safeFloat (dictGet "tax_amount" o.orderAmount)),
   ("total_amount", safeFloat (dictGet "total_amount" o.orderAmount))]

/-- Embedding of `_extract_recipient_info` (source lines 112-127). -/
def extractRecipientInfo (o : TikTokOrder) : Row :=
  [("recipient_address_detail", dictGet "detail" o.recipientAddress),
   ("recipient_address_region_code",
    dictGet "region_code" o.recipientAddress),
   ("recipient_address_state", dictGet "state" o.recipientAddress),
   ("recipient_address_city", dictGet "city" o.recipientAddress),
   ("recipient_address_town", dictGet "town" o.recipientAddress),
   ("recipient_address_district", dictGet "district" o.recipientAddress),
   ("recipient_address_zipcode", dictGet "zipcode" o.recipientAddress),
   ("recipient_name", dictGet "name" o.recipientAddress),
   ("recipient_phone", dictGet "phone" o.recipientAddress),
   ("recipient_phone_number", dictGet "phone_number" o.recipientAddress)]

/-- Embedding of `_extract_item_info` (source lines 129-150); `dumps` is the
JSON serializer `json.dumps`, supplied as an oracle. -/
def extractItemInfo (dumps : List (List (String × FieldVal)) → String)
    (it : TikTokItem) : Row :=
  [("item_id", dictGet "product_id" it.fields),
   ("item_name", dictGet "product_name" it.fields),
   ("item_sku_id", dictGet "sku_id" it.fields),
   ("item_sku_image", dictGet "sku_image" it.skuInfo),
   ("item_sku_name", dictGet "sku_name" it.skuInfo),
   ("item_quantity", safeInt (dictGet "quantity" it.fields)),
   ("item_unit_price", safeFloat (dictGet "unit_price" it.fields)),
   ("item_currency", dictGet "currency" it.fields),
   ("item_is_gift", dictGet "is_gift" it.fields),
   ("item_platform_discount",
    safeFloat (dictGet "platform_discount" it.fields)),
   ("item_seller_discount", safeFloat (dictGet "seller_discount" it.fields)),
   ("item_sku_sales_attributes",
    if it.salesAttributes.isEmpty then FieldVal.null
    else FieldVal.str (dumps it.salesAttributes))]

/-- Embedding of `_get_empty_item_fields` (source lines 152-167). -/
def emptyItemFields : Row :=
  [("item_id", FieldVal.null),
   ("item_name", FieldVal.null),
   ("item_sku_id", FieldVal.null),
   ("item_sku_image", FieldVal.null),
   ("item_sku_name", FieldVal.null),
   ("item_quantity", FieldVal.null),
   ("item_unit_price", FieldVal.null),
   ("item_currency", FieldVal.null),
   ("item_is_gift", FieldVal.null),
   ("item_platform_discount", FieldVal.null),
   ("item_seller_discount", FieldVal.null),
   ("item_sku_sales_attributes", FieldVal.null)]

/-- Flattening of one TikTok order (body of the `for order in orders` loop,
source lines 39-60): one row per line item, or a single row with the empty
item fields when the order has no line items. -/
def flattenTikTokOrder (dumps : List (List (String × FieldVal)) → String)
    (o : TikTokOrder) : List Row :=
  if o.lineItems.isEmpty then
    [extractOrderInfo o ++ extractRecipientInfo o ++ emptyItemFields]
  else
    o.lineItems.map (fun it =>
      extractOrderInfo o ++ extractRecipientInfo o ++ extractItemInfo dumps it)

/-- Embedding of the TikTok `_add_etl_metadata` (source lines 169-177),
applied to one row.  The transformer instance's `batch_id` (one UUID per
transformer) is a parameter. -/
def addTikTokEtlMetadata (batchId : String) (now : Int) (row : Row) : Row :=
  setColumn "etl_updated_at" (FieldVal.num now)
    (setColumn "etl_created_at" (FieldVal.num now)
      (setColumn "etl_batch_id" (FieldVal.str batchId) row))

/-- Embedding of `transform_orders_to_dataframe` (source lines 22-73):
early return on empty input, flattening loop, ETL metadata stamping. -/
def transform_orders_to_dataframe
    (dumps : List (List (String × FieldVal)) → String) (batchId : String)
    (now : Int) (orders : List TikTokOrder) : List Row :=
  if orders.isEmpty then []
  else
    ((orders.flatMap (flattenTikTokOrder dumps)).map
      (addTikTokEtlMetadata batchId now))

end TikTokTransformer

namespace MisaExtractor

/-! Embedding of `src/src/extractors/misa_crm_extractor.py`: token lifecycle
(lines 50-109), request retry (lines 123-154), paginated bulk extraction
(lines 201-242) and incremental extraction (lines 244-285). -/
/-- In-memory token cache of the extractor (`self.access_token`,
`self.token_expires_at`). -/
structure TokenState where
  accessToken : Option String
  tokenExpiresAt : Option Int
  deriving DecidableEq, Repr

/-- Embedding of `_decode_token_expiry` (source lines 50-64): the JWT
decoder is the oracle `decodeExp`; when it yields no expiry (or raises) a
default lifetime of one hour from `now` is assumed.  Times are seconds. -/
def _decode_token_expiry (decodeExp : String → Option Int) (now : Int)
    (token : String) : Int :=
  match decodeExp token with
  | some exp => exp
  | none => now + 3600

/-- Embedding of `_is_token_expired` (source lines 66-72).  A missing or
empty token, or a missing expiry, counts as expired; otherwise the token is
expired exactly when `now + buffer` reaches the stored expiry. -/
def _is_token_expired (st : TokenState) (now buffer : Int) : Bool :=
  if (st.accessToken.getD "").isEmpty then true
  else
    match st.tokenExpiresAt with
    | none => true
    | some exp => decide (exp ≤ now + buffer)

/-- Outcome of the one token-endpoint round trip inside
`get_access_token`. -/
inductive TokenResponse where
  | ok (token : String)
  | invalidFormat
  | httpError (code : Nat)
  | requestExc
  deriving DecidableEq, Repr

/-- Embedding of `get_access_token` (source lines 74-109).  Returns the
token (or `None` on failure), the new cache state, and the number of network
round trips performed (0 or 1). -/
def get_access_token (decodeExp : String → Option Int) (now buffer : Int)
    (net : TokenResponse) (st : TokenState) (forceRefresh : Bool) :
    Option String × TokenState × Nat :=
  if !forceRefresh && !(_is_token_expired st now buffer) then
    (st.accessToken, st, 0)
  else
    match net with
    | TokenResponse.ok tok =>
        (some tok,
         ⟨some tok, some (_decode_token_expiry decodeExp now tok)⟩, 1)
    | _ => (none, st, 1)

/-- Outcome of one HTTP attempt inside `_make_request_with_retry` (header
construction plus `requests.request`): a 200 response, a 401, another
status, or a raised exception. -/
inductive ReqOutcome where
  | success
  | http401
  | httpOther (code : Nat)
  | requestExc
  deriving DecidableEq, Repr

/-- Embedding of the `for attempt in range(...)` loop of
`_make_request_with_retry` (source lines 123-154).  `outcomes i` is the
outcome of the attempt with index `i`.  Returns the index of the successful
attempt (or `None` when the loop ends without a 200), the number of HTTP
attempts made, and the number of forced token refreshes performed (one per
401). -/
def retryLoop (outcomes : Nat → ReqOutcome) :
    Nat → Nat → Option Nat × Nat × Nat
  | 0, _ => (none, 0, 0)
  | fuel + 1, attempt =>
    match outcomes attempt with
    | ReqOutcome.success => (some attempt, 1, 0)
    | ReqOutcome.httpOther _ => (none, 1, 0)
    | ReqOutcome.http401 =>
        let r := retryLoop outcomes fuel (attempt + 1)
        (r.1, r.2.1 + 1, r.2.2 + 1)
    | ReqOutcome.requestExc =>
        let r := retryLoop outcomes fuel (attempt + 1)
        (r.1, r.2.1 + 1, r.2.2)

/-- Embedding of `_make_request_with_retry` with
`settings.api_retry_attempts = retryAttempts`. -/
def _make_request_with_retry (outcomes : Nat → ReqOutcome)
    (retryAttempts : Nat) : Option Nat × Nat × Nat :=
  retryLoop outcomes retryAttempts 0

/-- Body of a successful `extract_endpoint_data` response: the parsed JSON,
which may or may not carry a `data` list. -/
structure ApiResponse (α : Type) where
  data : Option (List α)
  deriving DecidableEq, Repr

/-- The guard `if max_pages and page >= max_pages` (source line 218):
`max_pages` of `None` (and, by Python falsiness, `0`) disables the limit. -/
def maxPagesHit (maxPages : Option Nat) (page : Nat) : Bool :=
  match maxPages with
  | none => false
  | some m => if m = 0 then false else decide (m ≤ page)

/-- Embedding of the `while True` pagination loop of
`extract_all_data_from_endpoint` (source lines 212-242).  `fetch page` is
the result of `extract_endpoint_data` for that page (`None` on failure).
Returns the accumulated records and the number of pages requested.  `fuel`
bounds the recursion and is irrelevant whenever it exceeds the number of
iterations actually performed. -/
def extractAllLoop {α : Type} (fetch : Nat → Option (ApiResponse α))
    (pageSize : Nat) (maxPages : Option Nat) :
    Nat → Nat → List α → List α × Nat
  | 0, _, acc => (acc, 0)
  | fuel + 1, page, acc =>
    if maxPagesHit maxPages page then (acc, 0)
    else
      match fetch page with
      | none => (acc, 1)
      | some resp =>
        match resp.data with
        | none => (acc, 1)
        | some [] => (acc, 1)
        | some batch =>
          if batch.length < pageSize then (acc ++ batch, 1)
          else
            let r := extractAllLoop fetch pageSize maxPages fuel (page + 1)
              (acc ++ batch)
            (r.1, r.2 + 1)

/-- Embedding of `extract_all_data_from_endpoint` (source lines 201-242). -/
def extract_all_data_from_endpoint {α : Type}
    (fetch : Nat → Option (ApiResponse α)) (pageSize : Nat)
    (maxPages : Option Nat) (fuel : Nat) : List α × Nat :=
  extractAllLoop fetch pageSize maxPages fuel 0 []

/-- Python truthiness of a field value (`if modified_date_str:`). -/
def truthyVal : FieldVal → Bool
  | FieldVal.null => false
  | FieldVal.str s => !s.isEmpty
  | FieldVal.num n => decide (n ≠ 0)
  | FieldVal.bool b => b

/-- Model of the Python `modified_date_str.replace('Z', '+00:00')` rewrite:
single-character pattern replacement, character by character. -/
def replaceZ (s : String) : String :=
  String.mk (s.data.flatMap (fun c => if c = 'Z' then "+00:00".data else [c]))

/-- The per-record keep decision of the incremental filter (source lines
270-282): records with a truthy string `modified_date` are parsed (after the
`Z` to `+00:00` rewrite) and kept when at or after the cutoff; a parse
failure, a non-string value (whose `.replace` raises and is caught by the
bare `except`) or a falsy/absent `modified_date` keeps the record. -/
def keepRecord (parseDate : String → Option Int) (cutoff : Int) (r : Row) :
    Bool :=
  let v := dictGet "modified_date" r
  if truthyVal v then
    match v with
    | FieldVal.str s =>
        match parseDate (replaceZ s) with
        | some t => decide (cutoff ≤ t)
        | none => true
    | _ => true
  else true

/-- Embedding of `extract_incremental_data` (source lines 244-285): a bulk
extraction capped at 10 pages, then the lookback filter with cutoff
`now - lookback_hours` (hours modelled as 3600 seconds). -/
def extract_incremental_data (fetch : Nat → Option (ApiResponse Row))
    (pageSize : Nat) (parseDate : String → Option Int)
    (now lookbackHours : Int) (fuel : Nat) : List Row :=
  let allData := (extractAllLoop fetch pageSize (some 10) fuel 0 []).1
  if allData.isEmpty then []
  else allData.filter (keepRecord parseDate (now - lookbackHours * 3600))

/-- Composition of `extract_endpoint_data` with the retry layer (source
lines 156-199): page `page` yields a parsed body only when the retry loop
for that page returns a response; a retry-exhausted failure yields `None`,
which the pagination loop receives exactly like an empty page. -/
def extractEndpointFetch {α : Type} (outcomes : Nat → Nat → ReqOutcome)
    (pages : Nat → ApiResponse α) (retryAttempts : Nat) :
    Nat → Option (ApiResponse α) :=
  fun page =>
    match (_make_request_with_retry (outcomes page) retryAttempts).1 with
    | none => none
    | some _ => some (pages page)

end MisaExtractor

/-! Embedding of a pandas DataFrame as used by the validators and loaders: a
fixed column list plus rows; a cell missing from a row is the missing value
`NaN`. -/
/-- DataFrame model for validation and loading. -/
structure DataFrame where
  columns : List String
  rows : List Row
  deriving DecidableEq, Repr

/-- Number of rows whose cell in column `c` is the missing value
(`df[c].isnull().sum()`). -/
def nullCount (c : String) (df : DataFrame) : Nat :=
  df.rows.countP (fun r => decide (dictGet c r = FieldVal.null))

namespace TikTokTransformer

/-- Embedding of the transformer's `validate_dataframe` (source lines
197-235 of `tiktok_shop_transformer.py`): empty frame and missing required
columns fail; rows with a null `order_id` are merely counted and logged as a
warning before the data-quality metrics are logged and `True` is
returned. -/
def validate_dataframe (df : DataFrame) : Bool :=
  if df.rows.isEmpty then false
  else
    let missing :=
      ["order_id", "etl_batch_id"].filter (fun c => !(df.columns.contains c))
    if !missing.isEmpty then false
    else true

end TikTokTransformer

namespace TikTokLoader

/-! Embedding of `src/src/loaders/tiktok_shop_staging_loader.py`
(`_validate_dataframe` lines 205-250, `load_orders` lines 61-126,
`load_incremental_orders` lines 128-153). -/
/-- Embedding of the loader's `_validate_dataframe`: missing required
columns fail, and any row with a null `order_id` fails; the negative-value
scan only logs warnings. -/
def _validate_dataframe (df : DataFrame) : Bool :=
  let missing :=
    ["order_id", "etl_batch_id", "etl_created_at", "etl_updated_at"].filter
      (fun c => !(df.columns.contains c))
  if !missing.isEmpty then false
  else if 0 < nullCount "order_id" df then false
  else true

/-- Embedding of `load_orders`.  `prepare` stands for
`_prepare_dataframe_for_load` (a pure value reshaping), `truncateOk` and
`insertOk` for the database truncate/insert round trips.  Returns the
success flag and the number of database write operations issued. -/
def load_orders (prepare : DataFrame → DataFrame) (df : DataFrame)
    (loadMode : String) (validateBeforeLoad : Bool)
    (truncateOk insertOk : Bool) : Bool × Nat :=
  if df.rows.isEmpty then (true, 0)
  else
    if validateBeforeLoad && !(_validate_dataframe df) then (false, 0)
    else
      let _dfPrepared := prepare df
      if loadMode = "truncate_insert" then
        if !truncateOk then (false, 1)
        else if insertOk then (true, 2) else (false, 2)
      else if loadMode = "replace" || loadMode = "append" then
        if insertOk then (true, 1) else (false, 1)
      else (false, 0)

/-- Embedding of `load_incremental_orders`: plain append with validation,
relying on target constraints for deduplication. -/
def load_incremental_orders (prepare : DataFrame → DataFrame)
    (df : DataFrame) (truncateOk insertOk : Bool) : Bool × Nat :=
  if df.rows.isEmpty then (true, 0)
  else load_orders prepare df "append" true truncateOk insertOk

end TikTokLoader

namespace MisaLoader

/-! Embedding of `src/src/loaders/misa_crm_loader.py`
(`load_dataframe_to_staging` lines 88-131 with the pyodbc fallback lines
133-215). -/
/-- Embedding of `load_dataframe_to_staging`: empty frames succeed without
touching the database; an unmapped endpoint fails; otherwise one `to_sql`
write is attempted and, on exception, one pyodbc fallback write.  Returns
the success flag and the number of database write operations issued. -/
def load_dataframe_to_staging (df : DataFrame) (endpoint : String)
    (tableMappings : List (String × String)) (toSqlOk : Bool)
    (pyodbcOk : Bool) : Bool × Nat :=
  if df.rows.isEmpty then (true, 0)
  else if !((tableMappings.map Prod.fst).contains endpoint) then (false, 0)
  else if toSqlOk then (true, 1)
  else if pyodbcOk then (true, 2)
  else (false, 2)

end MisaLoader

namespace Orchestrator

/-! Embedding of `src/src/orchestrators/production_etl_orchestrator.py`
(`_process_misa_crm_endpoints` lines 131-204, `_process_tiktok_shop_data`
lines 206-262, `_calculate_total_records` lines 329-344). -/
/-- Endpoint status strings used by the orchestrator. -/
inductive Status where
  | success
  | no_data
  | duplicate_skipped
  | load_failed
  | error
  deriving DecidableEq, Repr

/-- One endpoint's entry in the cycle result dict.  For statuses that omit
the count keys in the source dict, the counts are 0 (the consumer
`_calculate_total_records` reads them with `.get('records', 0)`). -/
structure EndpointResult where
  status : Status
  records : Nat
  extracted : Nat
  transformed : Nat
  errorMsg : Option String
  deriving DecidableEq, Repr

/-- Result of one pipeline stage as an effect: a value, or a raised
exception with its message. -/
inductive StageResult (α : Type) where
  | ok (val : α)
  | exc (msg : String)

/-- Behaviour of the extract, transform and load collaborators for one
endpoint during one cycle (the effects inside the `try` block of the
per-endpoint loop).  Record payloads are irrelevant to the orchestrator, so
records are modelled as `Unit`. -/
structure EndpointBehavior where
  extractResult : StageResult (List Unit)
  transformResult : StageResult (List Unit)
  loadResult : StageResult Bool

/-- Body of the per-endpoint `try`/`except` of
`_process_misa_crm_endpoints` (source lines 147-202): extract, the no-data
early out, transform, load, and the translation of the load flag into
`success`/`duplicate_skipped`; any exception is caught and recorded as
status `error` with zero records. -/
def processEndpoint (b : EndpointBehavior) : EndpointResult :=
  match b.extractResult with
  | StageResult.exc m => ⟨Status.error, 0, 0, 0, some m⟩
  | StageResult.ok raw =>
    if raw.isEmpty then ⟨Status.no_data, 0, 0, 0, none⟩
    else
      match b.transformResult with
      | StageResult.exc m => ⟨Status.error, 0, 0, 0, some m⟩
      | StageResult.ok rows =>
        match b.loadResult with
        | StageResult.exc m => ⟨Status.error, 0, 0, 0, some m⟩
        | StageResult.ok true =>
            ⟨Status.success, rows.length, raw.length, rows.length, none⟩
        | StageResult.ok false =>
            ⟨Status.duplicate_skipped, 0, raw.length, rows.length, none⟩

/-- The first exception raised on the executed path of one endpoint's
pipeline, if any. -/
def pipelineException (b : EndpointBehavior) : Option String :=
  match b.extractResult with
  | StageResult.exc m => some m
  | StageResult.ok raw =>
    if raw.isEmpty then none
    else
      match b.transformResult with
      | StageResult.exc m => some m
      | StageResult.ok _ =>
        match b.loadResult with
        | StageResult.exc m => some m
        | StageResult.ok _ => none

/-- MISA endpoint configuration entry (source lines 137-143). -/
structure MisaEndpointSpec where
  name : String
  table : String
  priority : Nat
  deriving DecidableEq, Repr

/-- The configured MISA endpoints with their priorities. -/
def misaEndpoints : List MisaEndpointSpec :=
  [⟨"sale_orders", "sale_orders_flattened", 1⟩,
   ⟨"customers", "customers", 2⟩,
   ⟨"contacts", "contacts", 3⟩,
   ⟨"stocks", "stocks", 4⟩,
   ⟨"products", "products", 5⟩]

/-- Embedding of `_process_misa_crm_endpoints`: endpoints sorted by
priority, each processed by `processEndpoint` under its own
`try`/`except`. -/
def processMisaEndpoints (env : String → EndpointBehavior) :
    List (String × EndpointResult) :=
  (List.insertionSort (fun a b => a.priority ≤ b.priority)
      misaEndpoints).map
    (fun e => (e.name, processEndpoint (env e.name)))

/-- Embedding of `_process_tiktok_shop_data` (source lines 206-262): same
shape as one MISA endpoint, except that a load failure is recorded as
`load_failed`. -/
def processTikTokShop (b : EndpointBehavior) : EndpointResult :=
  match b.extractResult with
  | StageResult.exc m => ⟨Status.error, 0, 0, 0, some m⟩
  | StageResult.ok raw =>
    if raw.isEmpty then ⟨Status.no_data, 0, 0, 0, none⟩
    else
      match b.transformResult with
      | StageResult.exc m => ⟨Status.error, 0, 0, 0, some m⟩
      | StageResult.ok rows =>
        match b.loadResult with
        | StageResult.exc m => ⟨Status.error, 0, 0, 0, some m⟩
        | StageResult.ok true =>
            ⟨Status.success, rows.length, raw.length, rows.length, none⟩
        | StageResult.ok false =>
            ⟨Status.load_failed, 0, raw.length, rows.length, none⟩

/-- Embedding of `_calculate_total_records`: the sum of the `records`
entries over the MISA endpoint results plus the TikTok result. -/
def _calculate_total_records (misa : List (String × EndpointResult))
    (tiktok : EndpointResult) : Nat :=
  (misa.map (fun p => p.2.records)).sum + tiktok.records

end Orchestrator

namespace MisaTransformer

/-- The single row flattened out of a childless order, before coercion and
metadata stamping. -/
def childlessRow (o : SaleOrder) : Row :=
  prefixFields "order_" o.main
    ++ itemNullFields.map (fun f => ("item_" ++ f, FieldVal.null))
    ++ [("has_multiple_items", FieldVal.bool false),
        ("total_items_in_order", FieldVal.num 0)]

end MisaTransformer

namespace MisaExtractor

/-- Number of 401 outcomes among the `fuel` attempts starting at index
`attempt`. -/
def count401 (outcomes : Nat → ReqOutcome) (attempt : Nat) : Nat → Nat
  | 0 => 0
  | fuel + 1 =>
      (if outcomes attempt = ReqOutcome.http401 then 1 else 0) +
        count401 outcomes (attempt + 1) fuel

/-- Parsed modification timestamp of a record as the incremental filter sees
it: `some t` exactly when `modified_date` holds a truthy string accepted by
the date parser (after the `Z` to `+00:00` rewrite); `none` when the field
is absent, falsy, non-string, or unparseable. -/
def modifiedTimestamp (parseDate : String → Option Int) (r : Row) :
    Option Int :=
  match dictGet "modified_date" r with
  | FieldVal.str s =>
      if s.isEmpty then none else parseDate (replaceZ s)
  | _ => none

end MisaExtractor

/-!
Properties proved about the embedding.  Helper lemmas come first; each
claim is settled by a single theorem named with its claim id, with its
witness or counterexample alongside.
-/

theorem lookupField_append_of_none {k : String} {l1 l2 : Row}
    (h : lookupField k l1 = none) :
    lookupField k (l1 ++ l2) = lookupField k l2 := by
  induction l1 with
  | nil => rfl
  | cons kv rest ih =>
    by_cases hk : kv.1 = k
    · simp [lookupField, hk] at h
    · simp only [lookupField, hk, if_neg, List.cons_append] at h ⊢
      exact ih h

theorem lookupField_eq_none {k : String} {row : Row}
    (h : ∀ kv ∈ row, kv.1 ≠ k) : lookupField k row = none := by
  induction row with
  | nil => rfl
  | cons kv rest ih =>
    simp only [lookupField, h kv (List.mem_cons_self kv rest), if_neg]
    exact ih fun x hx => h x (List.mem_cons_of_mem kv hx)

theorem lookupField_isSome_of_any {k : String} {row : Row}
    (h : row.any (fun kv => kv.1 = k) = true) :
    (lookupField k row).isSome = true := by
  induction row with
  | nil => simp at h
  | cons kv rest ih =>
    by_cases hk : kv.1 = k
    · simp [lookupField, hk]
    · simp only [List.any_cons, Bool.or_eq_true, decide_eq_true_eq] at h
      rcases h with h | h
      · exact absurd h hk
      · simpa [lookupField, hk] using ih h

theorem lookupField_map_replace (k kp : String) (v : FieldVal) (row : Row) :
    lookupField k (row.map (fun kv => if kv.1 = kp then (kv.1, v) else kv)) =
      if k = kp then (lookupField k row).map (fun _ => v)
      else lookupField k row := by
  induction row with
  | nil => by_cases hc : k = kp <;> simp [lookupField, hc]
  | cons kv rest ih =>
    by_cases hkp : kv.1 = kp
    · rw [List.map_cons, if_pos hkp]
      by_cases hk : kv.1 = k
      · have hkkp : k = kp := by rw [← hk, hkp]
        simp [lookupField, hk, hkkp]
      · simp only [lookupField, if_neg hk]
        exact ih
    · rw [List.map_cons, if_neg hkp]
      by_cases hk : kv.1 = k
      · have hnkp : ¬ k = kp := fun hc => hkp (by rw [hk, hc])
        simp [lookupField, hk, hnkp]
      · simp only [lookupField, if_neg hk]
        exact ih

theorem lookupField_append_single_ne {k kp : String} (h : k ≠ kp)
    (v : FieldVal) (row : Row) :
    lookupField k (row ++ [(kp, v)]) = lookupField k row := by
  induction row with
  | nil => simp [lookupField, Ne.symm h]
  | cons kv rest ih =>
    by_cases hk : kv.1 = k <;> simp [lookupField, hk, ih]

theorem lookupField_setColumn_self (k : String) (v : FieldVal) (row : Row) :
    lookupField k (setColumn k v row) = some v := by
  unfold setColumn
  by_cases hmem : row.any (fun kv => kv.1 = k)
  · rw [if_pos hmem, lookupField_map_replace, if_pos rfl]
    have hsome := lookupField_isSome_of_any hmem
    cases hcase : lookupField k row with
    | none => rw [hcase] at hsome; simp at hsome
    | some w => simp
  · rw [if_neg hmem]
    have hnone : lookupField k row = none := by
      apply lookupField_eq_none
      intro kv hkv hc
      exact hmem (List.any_eq_true.mpr ⟨kv, hkv, by simp [hc]⟩)
    rw [lookupField_append_of_none hnone]
    simp [lookupField]

theorem lookupField_setColumn_ne {k kp : String} (h : k ≠ kp)
    (v : FieldVal) (row : Row) :
    lookupField k (setColumn kp v row) = lookupField k row := by
  unfold setColumn
  by_cases hmem : row.any (fun kv => kv.1 = kp)
  · rw [if_pos hmem, lookupField_map_replace, if_neg h]
  · rw [if_neg hmem, lookupField_append_single_ne h]

theorem append_ne_of_head (p q x y : String) (c d : Char)
    (hp : p.data.head? = some c) (hq : q.data.head? = some d)
    (hcd : c ≠ d) : p ++ x ≠ q ++ y := by
  intro h
  have hdata : p.data ++ x.data = q.data ++ y.data := by
    have h0 := congrArg String.data h
    rwa [String.data_append, String.data_append] at h0
  have h1 : (p.data ++ x.data).head? = some c := by
    cases hp2 : p.data with
    | nil => simp [hp2] at hp
    | cons a l => simp [hp2] at hp ⊢; exact hp
  have h2 : (q.data ++ y.data).head? = some d := by
    cases hq2 : q.data with
    | nil => simp [hq2] at hq
    | cons a l => simp [hq2] at hq ⊢; exact hq
  rw [hdata, h2] at h1
  exact hcd (Option.some.inj h1).symm

theorem ne_append_of_head (p x k : String) (c : Char)
    (hp : p.data.head? = some c) (hk : k.data.head? ≠ some c) : p ++ x ≠ k := by
  intro h
  apply hk
  have hdata : p.data ++ x.data = k.data := by
    have h0 := congrArg String.data h
    rwa [String.data_append] at h0
  rw [← hdata]
  cases hp2 : p.data with
  | nil => simp [hp2] at hp
  | cons a l => simp [hp2] at hp ⊢; exact hp

namespace MisaTransformer

theorem length_applyColumn (f : FieldVal → FieldVal) (c : String)
    (df : List Row) : (applyColumn f c df).length = df.length := by
  unfold applyColumn
  split <;> simp

theorem length_applyColumns (f : FieldVal → FieldVal) (cols : List String)
    (df : List Row) : (applyColumns f cols df).length = df.length := by
  induction cols generalizing df with
  | nil => rfl
  | cons c cs ih =>
    unfold applyColumns at ih ⊢
    rw [List.foldl_cons, ih, length_applyColumn]

theorem flattenSaleOrder_length (o : SaleOrder) :
    (flattenSaleOrder o).length = max 1 o.productMappings.length := by
  unfold flattenSaleOrder
  by_cases h : o.productMappings.isEmpty
  · rw [if_pos h]
    rw [List.isEmpty_iff] at h
    simp [h]
  · rw [if_neg h]
    rw [List.isEmpty_iff] at h
    have hpos : 0 < o.productMappings.length := List.length_pos.mpr h
    simp only [List.length_map]
    omega

theorem applyColToRow_eq_self {f : FieldVal → FieldVal} {c : String}
    {row : Row} (h : ∀ kv ∈ row, kv.1 ≠ c) : applyColToRow f c row = row := by
  unfold applyColToRow
  induction row with
  | nil => rfl
  | cons kv rest ih =>
    rw [List.map_cons, if_neg (h kv (List.mem_cons_self kv rest))]
    rw [ih fun x hx => h x (List.mem_cons_of_mem kv hx)]

theorem mem_dfColumns {c : String} {df : List Row} :
    c ∈ dfColumns df ↔ ∃ r ∈ df, ∃ kv ∈ r, kv.1 = c := by
  unfold dfColumns
  rw [List.mem_dedup, List.mem_flatMap]
  constructor
  · rintro ⟨r, hr, hc⟩
    rw [List.mem_map] at hc
    obtain ⟨kv, hkv, hkvc⟩ := hc
    exact ⟨r, hr, kv, hkv, hkvc⟩
  · rintro ⟨r, hr, kv, hkv, hkvc⟩
    exact ⟨r, hr, List.mem_map.mpr ⟨kv, hkv, hkvc⟩⟩

theorem applyColumn_eq_map (f : FieldVal → FieldVal) (c : String)
    (df : List Row) : applyColumn f c df = df.map (applyColToRow f c) := by
  unfold applyColumn
  by_cases h : c ∈ dfColumns df
  · rw [if_pos h]
  · rw [if_neg h]
    have hrows : ∀ r ∈ df, applyColToRow f c r = r := by
      intro r hr
      apply applyColToRow_eq_self
      intro kv hkv hc
      exact h (mem_dfColumns.mpr ⟨r, hr, kv, hkv, hc⟩)
    have hmap : df.map (applyColToRow f c) = df.map (fun r => r) :=
      List.map_congr_left fun r hr => hrows r hr
    rw [hmap]
    simp

theorem applyColumns_eq_map (f : FieldVal → FieldVal) (cols : List String)
    (df : List Row) : applyColumns f cols df = df.map (coerceFold f cols) := by
  induction cols generalizing df with
  | nil =>
    have hmap : df.map (coerceFold f []) = df.map (fun r => r) :=
      List.map_congr_left fun r _ => rfl
    rw [hmap]
    simp [applyColumns]
  | cons c cs ih =>
    unfold applyColumns at ih ⊢
    rw [List.foldl_cons, applyColumn_eq_map, ih, List.map_map]
    apply List.map_congr_left
    intro r _
    simp [coerceFold]

theorem transform_eq_map (parseDate : String → Option Int) (batchId : String)
    (now : Int) (orders : List SaleOrder) :
    transform_sale_orders_flattened parseDate batchId now orders =
      (orders.flatMap flattenSaleOrder).map
        (fun r => addEtlMetadata batchId now (coerceRow parseDate r)) := by
  unfold transform_sale_orders_flattened
  by_cases h : orders.isEmpty
  · rw [if_pos h, List.isEmpty_iff.mp h]
    rfl
  · rw [if_neg h]
    by_cases h2 : (orders.flatMap flattenSaleOrder).isEmpty
    · simp only [h2, if_pos]
      rw [List.isEmpty_iff.mp h2]
      rfl
    · simp only [h2, if_neg, Bool.false_eq_true, not_false_iff]
      rw [applyColumns_eq_map, applyColumns_eq_map, applyColumns_eq_map,
        applyColumns_eq_map, applyColumns_eq_map,
        List.map_map, List.map_map, List.map_map, List.map_map, List.map_map]
      apply List.map_congr_left
      intro r _
      simp [coerceRow, Function.comp]

theorem lookupField_applyColToRow (k c : String) (f : FieldVal → FieldVal)
    (row : Row) :
    lookupField k (applyColToRow f c row) =
      if k = c then (lookupField k row).map f else lookupField k row := by
  unfold applyColToRow
  induction row with
  | nil => by_cases hc : k = c <;> simp [lookupField, hc]
  | cons kv rest ih =>
    by_cases hkc : kv.1 = c
    · rw [List.map_cons, if_pos hkc]
      by_cases hk : kv.1 = k
      · have hkkc : k = c := by rw [← hk, hkc]
        simp [lookupField, hk, hkkc]
      · simp only [lookupField, if_neg hk]
        exact ih
    · rw [List.map_cons, if_neg hkc]
      by_cases hk : kv.1 = k
      · have hnc : ¬ k = c := fun hcc => hkc (by rw [hk, hcc])
        simp [lookupField, hk, hnc]
      · simp only [lookupField, if_neg hk]
        exact ih

theorem lookup_coerceFold_null {k : String} {f : FieldVal → FieldVal}
    (hf : f FieldVal.null = FieldVal.null) (cols : List String) (row : Row)
    (h : lookupField k row = some FieldVal.null) :
    lookupField k (coerceFold f cols row) = some FieldVal.null := by
  induction cols generalizing row with
  | nil => exact h
  | cons c cs ih =>
    unfold coerceFold at ih ⊢
    rw [List.foldl_cons]
    apply ih
    rw [lookupField_applyColToRow]
    by_cases hc : k = c
    · rw [if_pos hc, h, Option.map_some', hf]
    · rw [if_neg hc, h]

theorem lookup_coerceFold_not_mem {k : String} {f : FieldVal → FieldVal}
    {cols : List String} (row : Row) (h : k ∉ cols) :
    lookupField k (coerceFold f cols row) = lookupField k row := by
  induction cols generalizing row with
  | nil => rfl
  | cons c cs ih =>
    unfold coerceFold at ih ⊢
    rw [List.foldl_cons]
    have hkc : k ≠ c := fun hc => h (hc ▸ List.mem_cons_self c cs)
    have hcs : k ∉ cs := fun hc => h (List.mem_cons_of_mem c hc)
    rw [ih _ hcs, lookupField_applyColToRow, if_neg hkc]

theorem lookup_coerceRow_null {k : String} (parseDate : String → Option Int)
    (row : Row) (h : lookupField k row = some FieldVal.null) :
    lookupField k (coerceRow parseDate row) = some FieldVal.null := by
  unfold coerceRow
  apply lookup_coerceFold_null rfl
  apply lookup_coerceFold_null rfl
  apply lookup_coerceFold_null rfl
  apply lookup_coerceFold_null rfl
  exact lookup_coerceFold_null rfl _ _ h

theorem lookup_coerceRow_has_multiple (parseDate : String → Option Int)
    (row : Row) :
    lookupField "has_multiple_items" (coerceRow parseDate row) =
      lookupField "has_multiple_items" row := by
  unfold coerceRow
  rw [lookup_coerceFold_not_mem _ (by decide),
    lookup_coerceFold_not_mem _ (by decide),
    lookup_coerceFold_not_mem _ (by decide),
    lookup_coerceFold_not_mem _ (by decide),
    lookup_coerceFold_not_mem _ (by decide)]

theorem lookup_coerceRow_total_items (parseDate : String → Option Int)
    (row : Row) :
    lookupField "total_items_in_order" (coerceRow parseDate row) =
      lookupField "total_items_in_order" row := by
  unfold coerceRow
  rw [lookup_coerceFold_not_mem _ (by decide),
    lookup_coerceFold_not_mem _ (by decide),
    lookup_coerceFold_not_mem _ (by decide),
    lookup_coerceFold_not_mem _ (by decide),
    lookup_coerceFold_not_mem _ (by decide)]

theorem lookup_prefix_null_list {p f : String} {fs : List String}
    (h : f ∈ fs) :
    lookupField (p ++ f)
      (fs.map (fun g => (p ++ g, FieldVal.null))) = some FieldVal.null := by
  induction fs with
  | nil => simp at h
  | cons g gs ih =>
    rw [List.map_cons]
    by_cases hg : p ++ g = p ++ f
    · simp [lookupField, hg]
    · have hfg : f ≠ g := fun hc => hg (by rw [hc])
      have hmem : f ∈ gs := by
        rcases List.mem_cons.mp h with h1 | h1
        · exact absurd h1 hfg
        · exact h1
      simp only [lookupField, hg, if_neg]
      exact ih hmem

theorem lookup_prefixFields_none {p k : String}
    {fields : List (String × FieldVal)} (h : ∀ x, p ++ x ≠ k) :
    lookupField k (prefixFields p fields) = none := by
  apply lookupField_eq_none
  intro kv hkv
  unfold prefixFields at hkv
  rw [List.mem_map] at hkv
  obtain ⟨kv0, _, hkv0⟩ := hkv
  rw [← hkv0]
  exact h kv0.1

theorem lookup_addEtlMetadata_batch (batchId : String) (now : Int)
    (row : Row) :
    lookupField "etl_batch_id" (addEtlMetadata batchId now row) =
      some (FieldVal.str batchId) := by
  unfold addEtlMetadata
  rw [lookupField_setColumn_ne (by decide), lookupField_setColumn_ne (by decide),
    lookupField_setColumn_ne (by decide), lookupField_setColumn_self]

end MisaTransformer

namespace TikTokTransformer

theorem flattenTikTokOrder_length
    (dumps : List (List (String × FieldVal)) → String) (o : TikTokOrder) :
    (flattenTikTokOrder dumps o).length = max 1 o.lineItems.length := by
  unfold flattenTikTokOrder
  by_cases h : o.lineItems.isEmpty
  · rw [if_pos h, List.isEmpty_iff.mp h]
    simp
  · rw [if_neg h]
    rw [List.isEmpty_iff] at h
    have hpos : 0 < o.lineItems.length := List.length_pos.mpr h
    simp only [List.length_map]
    omega

theorem lookup_addTikTokEtlMetadata_batch (batchId : String) (now : Int)
    (row : Row) :
    lookupField "etl_batch_id" (addTikTokEtlMetadata batchId now row) =
      some (FieldVal.str batchId) := by
  unfold addTikTokEtlMetadata
  rw [lookupField_setColumn_ne (by decide),
    lookupField_setColumn_ne (by decide), lookupField_setColumn_self]

end TikTokTransformer

namespace MisaExtractor

theorem extractAllLoop_full_prefix {α : Type}
    (fetch : Nat → Option (ApiResponse α)) (pageSize : Nat)
    (maxPages : Option Nat) (hpos : 0 < pageSize) :
    ∀ (bs : List (List α)) (fuel page : Nat) (acc : List α),
      (∀ i b, bs[i]? = some b →
          fetch (page + i) = some ⟨some b⟩ ∧ b.length = pageSize ∧
          maxPagesHit maxPages (page + i) = false) →
      extractAllLoop fetch pageSize maxPages (fuel + bs.length) page acc =
        ((extractAllLoop fetch pageSize maxPages fuel (page + bs.length)
            (acc ++ bs.flatten)).1,
         (extractAllLoop fetch pageSize maxPages fuel (page + bs.length)
            (acc ++ bs.flatten)).2 + bs.length) := by
  intro bs
  induction bs with
  | nil => intro fuel page acc _; simp
  | cons b bs ih =>
    intro fuel page acc h
    obtain ⟨hfetch, hlen, hmax⟩ := by
      have h0 := h 0 b (by simp)
      simpa using h0
    have hlen1 : fuel + (b :: bs).length = (fuel + bs.length) + 1 := by
      simp only [List.length_cons]
      omega
    rw [hlen1]
    cases hb : b with
    | nil =>
      rw [hb] at hlen
      simp at hlen
      omega
    | cons x xs =>
      subst hb
      have hstep : extractAllLoop fetch pageSize maxPages
          ((fuel + bs.length) + 1) page acc =
          ((extractAllLoop fetch pageSize maxPages (fuel + bs.length)
              (page + 1) (acc ++ (x :: xs))).1,
           (extractAllLoop fetch pageSize maxPages (fuel + bs.length)
              (page + 1) (acc ++ (x :: xs))).2 + 1) := by
        simp only [extractAllLoop, hmax, Bool.false_eq_true, if_false, hfetch,
          hlen, lt_irrefl]
      rw [hstep]
      have hshift : ∀ i c, bs[i]? = some c →
          fetch ((page + 1) + i) = some ⟨some c⟩ ∧ c.length = pageSize ∧
          maxPagesHit maxPages ((page + 1) + i) = false := by
        intro i c hc
        have h2 := h (i + 1) c (by simpa using hc)
        have harith : page + (i + 1) = (page + 1) + i := by omega
        rwa [harith] at h2
      rw [ih fuel (page + 1) (acc ++ (x :: xs)) hshift]
      have harith2 : page + 1 + bs.length = page + (bs.length + 1) := by omega
      simp only [List.flatten_cons, List.append_assoc, List.length_cons,
        harith2, Nat.add_assoc]

theorem extractAllLoop_stop_maxPages {α : Type}
    (fetch : Nat → Option (ApiResponse α)) (pageSize : Nat)
    (maxPages : Option Nat) (k page : Nat) (acc : List α)
    (hmax : maxPagesHit maxPages page = true) :
    extractAllLoop fetch pageSize maxPages (k + 1) page acc = (acc, 0) := by
  simp only [extractAllLoop, hmax, if_true]

theorem extractAllLoop_stop_fail {α : Type}
    (fetch : Nat → Option (ApiResponse α)) (pageSize : Nat)
    (maxPages : Option Nat) (k page : Nat) (acc : List α)
    (hmax : maxPagesHit maxPages page = false) (hfetch : fetch page = none) :
    extractAllLoop fetch pageSize maxPages (k + 1) page acc = (acc, 1) := by
  simp only [extractAllLoop, hmax, Bool.false_eq_true, if_false, hfetch]

theorem extractAllLoop_stop_nodata {α : Type}
    (fetch : Nat → Option (ApiResponse α)) (pageSize : Nat)
    (maxPages : Option Nat) (k page : Nat) (acc : List α)
    (hmax : maxPagesHit maxPages page = false)
    (hfetch : fetch page = some ⟨none⟩) :
    extractAllLoop fetch pageSize maxPages (k + 1) page acc = (acc, 1) := by
  simp only [extractAllLoop, hmax, Bool.false_eq_true, if_false, hfetch]

theorem extractAllLoop_stop_empty {α : Type}
    (fetch : Nat → Option (ApiResponse α)) (pageSize : Nat)
    (maxPages : Option Nat) (k page : Nat) (acc : List α)
    (hmax : maxPagesHit maxPages page = false)
    (hfetch : fetch page = some ⟨some []⟩) :
    extractAllLoop fetch pageSize maxPages (k + 1) page acc = (acc, 1) := by
  simp only [extractAllLoop, hmax, Bool.false_eq_true, if_false, hfetch]

theorem extractAllLoop_stop_short {α : Type}
    (fetch : Nat → Option (ApiResponse α)) (pageSize : Nat)
    (maxPages : Option Nat) (k page : Nat) (acc : List α) (bp : List α)
    (hmax : maxPagesHit maxPages page = false)
    (hfetch : fetch page = some ⟨some bp⟩) (hne : bp ≠ [])
    (hlt : bp.length < pageSize) :
    extractAllLoop fetch pageSize maxPages (k + 1) page acc =
      (acc ++ bp, 1) := by
  cases bp with
  | nil => exact absurd rfl hne
  | cons x xs =>
    simp only [extractAllLoop, hmax, Bool.false_eq_true, if_false, hfetch,
      hlt, if_true]

end MisaExtractor

theorem lookupField_append_of_some {k : String} {l1 l2 : Row} {v : FieldVal}
    (h : lookupField k l1 = some v) :
    lookupField k (l1 ++ l2) = some v := by
  induction l1 with
  | nil => simp [lookupField] at h
  | cons kv rest ih =>
    by_cases hk : kv.1 = k
    · simp only [lookupField, hk, if_pos, List.cons_append] at h ⊢
      exact h
    · simp only [lookupField, hk, if_neg, List.cons_append] at h ⊢
      exact ih h

theorem length_flatMap {α β : Type} (l : List α) (f : α → List β) :
    (l.flatMap f).length = (l.map (fun a => (f a).length)).sum := by
  induction l with
  | nil => rfl
  | cons a t ih => simp [List.flatMap_cons, ih]

namespace MisaTransformer

theorem flattenSaleOrder_childless (o : SaleOrder)
    (h : o.productMappings = []) : flattenSaleOrder o = [childlessRow o] := by
  unfold flattenSaleOrder childlessRow
  rw [if_pos (by rw [h]; rfl)]

theorem childlessRow_item_null (o : SaleOrder) {f : String}
    (hf : f ∈ itemNullFields) :
    lookupField ("item_" ++ f) (childlessRow o) = some FieldVal.null := by
  unfold childlessRow
  rw [List.append_assoc]
  rw [lookupField_append_of_none (lookup_prefixFields_none fun x =>
    append_ne_of_head "order_" "item_" x f 'o' 'i' (by decide) (by decide)
      (by decide))]
  exact lookupField_append_of_some (lookup_prefix_null_list hf)

theorem childlessRow_has_multiple (o : SaleOrder) :
    lookupField "has_multiple_items" (childlessRow o) =
      some (FieldVal.bool false) := by
  unfold childlessRow
  rw [List.append_assoc]
  rw [lookupField_append_of_none (lookup_prefixFields_none fun x =>
    ne_append_of_head "order_" x "has_multiple_items" 'o' (by decide)
      (by decide))]
  rw [lookupField_append_of_none (lookupField_eq_none ?hkeys)]
  · simp [lookupField]
  case hkeys =>
    intro kv hkv
    rw [List.mem_map] at hkv
    obtain ⟨g, _, hg⟩ := hkv
    rw [← hg]
    exact ne_append_of_head "item_" g "has_multiple_items" 'i' (by decide)
      (by decide)

theorem childlessRow_total_items (o : SaleOrder) :
    lookupField "total_items_in_order" (childlessRow o) =
      some (FieldVal.num 0) := by
  unfold childlessRow
  rw [List.append_assoc]
  rw [lookupField_append_of_none (lookup_prefixFields_none fun x =>
    ne_append_of_head "order_" x "total_items_in_order" 'o' (by decide)
      (by decide))]
  rw [lookupField_append_of_none (lookupField_eq_none ?hkeys)]
  · simp [lookupField]
  case hkeys =>
    intro kv hkv
    rw [List.mem_map] at hkv
    obtain ⟨g, _, hg⟩ := hkv
    rw [← hg]
    exact ne_append_of_head "item_" g "total_items_in_order" 'i' (by decide)
      (by decide)

theorem lookup_addEtlMetadata_item (batchId : String) (now : Int) (row : Row)
    (f : String) :
    lookupField ("item_" ++ f) (addEtlMetadata batchId now row) =
      lookupField ("item_" ++ f) row := by
  unfold addEtlMetadata
  rw [lookupField_setColumn_ne (ne_append_of_head "item_" f "etl_source" 'i'
      (by decide) (by decide)),
    lookupField_setColumn_ne (ne_append_of_head "item_" f "etl_updated_at" 'i'
      (by decide) (by decide)),
    lookupField_setColumn_ne (ne_append_of_head "item_" f "etl_created_at" 'i'
      (by decide) (by decide)),
    lookupField_setColumn_ne (ne_append_of_head "item_" f "etl_batch_id" 'i'
      (by decide) (by decide))]

theorem lookup_addEtlMetadata_has_multiple (batchId : String) (now : Int)
    (row : Row) :
    lookupField "has_multiple_items" (addEtlMetadata batchId now row) =
      lookupField "has_multiple_items" row := by
  unfold addEtlMetadata
  rw [lookupField_setColumn_ne (by decide),
    lookupField_setColumn_ne (by decide),
    lookupField_setColumn_ne (by decide),
    lookupField_setColumn_ne (by decide)]

theorem lookup_addEtlMetadata_total (batchId : String) (now : Int)
    (row : Row) :
    lookupField "total_items_in_order" (addEtlMetadata batchId now row) =
      lookupField "total_items_in_order" row := by
  unfold addEtlMetadata
  rw [lookupField_setColumn_ne (by decide),
    lookupField_setColumn_ne (by decide),
    lookupField_setColumn_ne (by decide),
    lookupField_setColumn_ne (by decide)]

end MisaTransformer

/-- C1: for every input list of raw records the flattening transformation
emits exactly `max 1 k` flat rows for each record with `k` nested child
items -- one row per child when children exist, and exactly one row with the
child-prefixed fields null, `has_multiple_items = false` and
`total_items_in_order = 0` when there are none -- and every row produced by
one transform call carries the same `batch_id`.  Stated for the MISA sale
order transformer and, for the row count and the shared batch id, for the
TikTok Shop order transformer as well. -/
theorem C1_flatten_rows_and_lineage
    (parseDate : String → Option Int)
    (dumps : List (List (String × FieldVal)) → String)
    (batchId ttBatchId : String) (now : Int) :
    (∀ orders : List MisaTransformer.SaleOrder,
      (MisaTransformer.transform_sale_orders_flattened parseDate batchId now
          orders).length =
        (orders.map (fun o => max 1 o.productMappings.length)).sum)
    ∧ (∀ o : MisaTransformer.SaleOrder,
        (MisaTransformer.flattenSaleOrder o).length =
          max 1 o.productMappings.length)
    ∧ (∀ orders row,
        row ∈ MisaTransformer.transform_sale_orders_flattened parseDate
            batchId now orders →
        lookupField "etl_batch_id" row = some (FieldVal.str batchId))
    ∧ (∀ o : MisaTransformer.SaleOrder, o.productMappings = [] →
        ∃ row,
          MisaTransformer.transform_sale_orders_flattened parseDate batchId
              now [o] = [row]
          ∧ (∀ f ∈ MisaTransformer.itemNullFields,
              lookupField ("item_" ++ f) row = some FieldVal.null)
          ∧ lookupField "has_multiple_items" row = some (FieldVal.bool false)
          ∧ lookupField "total_items_in_order" row = some (FieldVal.num 0))
    ∧ (∀ orders : List TikTokTransformer.TikTokOrder,
        (TikTokTransformer.transform_orders_to_dataframe dumps ttBatchId now
            orders).length =
          (orders.map (fun o => max 1 o.lineItems.length)).sum)
    ∧ (∀ orders row,
        row ∈ TikTokTransformer.transform_orders_to_dataframe dumps ttBatchId
            now orders →
        lookupField "etl_batch_id" row = some (FieldVal.str ttBatchId)) := by
  refine ⟨?_, ?_, ?_, ?_, ?_, ?_⟩
  · intro orders
    rw [MisaTransformer.transform_eq_map, List.length_map, length_flatMap]
    exact congrArg List.sum
      (List.map_congr_left fun o _ => MisaTransformer.flattenSaleOrder_length o)
  · exact MisaTransformer.flattenSaleOrder_length
  · intro orders row hrow
    rw [MisaTransformer.transform_eq_map] at hrow
    rw [List.mem_map] at hrow
    obtain ⟨r0, _, hr0⟩ := hrow
    rw [← hr0]
    exact MisaTransformer.lookup_addEtlMetadata_batch batchId now _
  · intro o h
    refine ⟨MisaTransformer.addEtlMetadata batchId now
      (MisaTransformer.coerceRow parseDate (MisaTransformer.childlessRow o)),
      ?_, ?_, ?_, ?_⟩
    · rw [MisaTransformer.transform_eq_map]
      rw [show [o].flatMap MisaTransformer.flattenSaleOrder
            = MisaTransformer.flattenSaleOrder o by simp]
      rw [MisaTransformer.flattenSaleOrder_childless o h, List.map_cons,
        List.map_nil]
    · intro f hf
      rw [MisaTransformer.lookup_addEtlMetadata_item]
      exact MisaTransformer.lookup_coerceRow_null parseDate _
        (MisaTransformer.childlessRow_item_null o hf)
    · rw [MisaTransformer.lookup_addEtlMetadata_has_multiple,
        MisaTransformer.lookup_coerceRow_has_multiple,
        MisaTransformer.childlessRow_has_multiple]
    · rw [MisaTransformer.lookup_addEtlMetadata_total,
        MisaTransformer.lookup_coerceRow_total_items,
        MisaTransformer.childlessRow_total_items]
  · intro orders
    unfold TikTokTransformer.transform_orders_to_dataframe
    by_cases hempty : orders.isEmpty
    · rw [if_pos hempty, List.isEmpty_iff.mp hempty]
      rfl
    · rw [if_neg hempty, List.length_map, length_flatMap]
      exact congrArg List.sum (List.map_congr_left fun o _ =>
        TikTokTransformer.flattenTikTokOrder_length dumps o)
  · intro orders row hrow
    unfold TikTokTransformer.transform_orders_to_dataframe at hrow
    by_cases hempty : orders.isEmpty
    · rw [if_pos hempty] at hrow
      simp at hrow
    · rw [if_neg hempty, List.mem_map] at hrow
      obtain ⟨r0, _, hr0⟩ := hrow
      rw [← hr0]
      exact TikTokTransformer.lookup_addTikTokEtlMetadata_batch ttBatchId now _

/-- Witness for C1 at concrete inputs: a batch of one childless order and
one order with two items yields three rows; the childless order alone yields
one row with null item fields and zeroed child metadata; all rows carry the
supplied batch id; a TikTok order with two line items yields two rows. -/
theorem C1_flatten_rows_and_lineage_witness :
    (MisaTransformer.transform_sale_orders_flattened (fun _ => none) "b" 0
        [⟨[("id", FieldVal.str "o1")], []⟩,
         ⟨[("id", FieldVal.str "o2")],
          [[("id", FieldVal.str "i1")], [("id", FieldVal.str "i2")]]⟩]).length
      = 3
    ∧ (∀ row,
        row ∈ MisaTransformer.transform_sale_orders_flattened (fun _ => none)
          "b" 0
          [⟨[("id", FieldVal.str "o1")], []⟩,
           ⟨[("id", FieldVal.str "o2")],
            [[("id", FieldVal.str "i1")], [("id", FieldVal.str "i2")]]⟩] →
        lookupField "etl_batch_id" row = some (FieldVal.str "b"))
    ∧ (∃ row,
        MisaTransformer.transform_sale_orders_flattened (fun _ => none) "b" 0
            [⟨[("id", FieldVal.str "o1")], []⟩] = [row]
          ∧ (∀ f ∈ MisaTransformer.itemNullFields,
              lookupField ("item_" ++ f) row = some FieldVal.null)
          ∧ lookupField "has_multiple_items" row = some (FieldVal.bool false)
          ∧ lookupField "total_items_in_order" row = some (FieldVal.num 0))
    ∧ (TikTokTransformer.transform_orders_to_dataframe (fun _ => "") "tb" 0
        [⟨[("order_id", FieldVal.str "t1")], [], [],
          [⟨[], [], []⟩, ⟨[], [], []⟩]⟩]).length = 2 := by
  obtain ⟨h1, h2, h3, h4, h5, h6⟩ :=
    C1_flatten_rows_and_lineage (fun _ => none) (fun _ => "") "b" "tb" 0
  refine ⟨?_, ?_, ?_, ?_⟩
  · rw [h1]
    decide
  · intro row hrow
    exact h3 _ row hrow
  · exact h4 ⟨[("id", FieldVal.str "o1")], []⟩ rfl
  · rw [h5]
    decide

/-- C3: `extract_all_data_from_endpoint` stops paging exactly when the
current page hits the `max_pages` limit, fails or returns no records, or
returns strictly fewer records than the page size.  With `bs` the full pages
served before the stopping page `p = bs.length`, the loop returns the
concatenation of all pages served (including a final short page) and
requests no page beyond the stopping one. -/
theorem C3_extract_all_stop_conditions {α : Type}
    (fetch : Nat → Option (MisaExtractor.ApiResponse α)) (pageSize : Nat)
    (maxPages : Option Nat) (bs : List (List α)) (fuel : Nat)
    (hpos : 0 < pageSize)
    (hfull : ∀ i b, bs[i]? = some b →
        fetch i = some ⟨some b⟩ ∧ b.length = pageSize ∧
        MisaExtractor.maxPagesHit maxPages i = false)
    (hfuel : bs.length < fuel) :
    (MisaExtractor.maxPagesHit maxPages bs.length = true →
      MisaExtractor.extract_all_data_from_endpoint fetch pageSize maxPages
        fuel = (bs.flatten, bs.length))
    ∧ (MisaExtractor.maxPagesHit maxPages bs.length = false →
        (fetch bs.length = none →
          MisaExtractor.extract_all_data_from_endpoint fetch pageSize
            maxPages fuel = (bs.flatten, bs.length + 1))
        ∧ (fetch bs.length = some ⟨none⟩ →
            MisaExtractor.extract_all_data_from_endpoint fetch pageSize
              maxPages fuel = (bs.flatten, bs.length + 1))
        ∧ (fetch bs.length = some ⟨some []⟩ →
            MisaExtractor.extract_all_data_from_endpoint fetch pageSize
              maxPages fuel = (bs.flatten, bs.length + 1))
        ∧ (∀ bp, fetch bs.length = some ⟨some bp⟩ → bp ≠ [] →
            bp.length < pageSize →
            MisaExtractor.extract_all_data_from_endpoint fetch pageSize
              maxPages fuel = (bs.flatten ++ bp, bs.length + 1))) := by
  have hsplit : fuel = (fuel - bs.length - 1 + 1) + bs.length := by omega
  have haux := MisaExtractor.extractAllLoop_full_prefix fetch pageSize
    maxPages hpos bs (fuel - bs.length - 1 + 1) 0 []
    (by intro i b hb; simpa using hfull i b hb)
  unfold MisaExtractor.extract_all_data_from_endpoint
  rw [hsplit, haux]
  simp only [Nat.zero_add, List.nil_append]
  constructor
  · intro hmax
    rw [MisaExtractor.extractAllLoop_stop_maxPages fetch pageSize maxPages
      _ _ _ hmax]
    simp
  · intro hmax
    refine ⟨?_, ?_, ?_, ?_⟩
    · intro hfetch
      rw [MisaExtractor.extractAllLoop_stop_fail fetch pageSize maxPages
        _ _ _ hmax hfetch]
      simp [Nat.add_comm]
    · intro hfetch
      rw [MisaExtractor.extractAllLoop_stop_nodata fetch pageSize maxPages
        _ _ _ hmax hfetch]
      simp [Nat.add_comm]
    · intro hfetch
      rw [MisaExtractor.extractAllLoop_stop_empty fetch pageSize maxPages
        _ _ _ hmax hfetch]
      simp [Nat.add_comm]
    · intro bp hfetch hne hlt
      rw [MisaExtractor.extractAllLoop_stop_short fetch pageSize maxPages
        _ _ _ bp hmax hfetch hne hlt]
      simp [Nat.add_comm]

/-- Witness for C3: a source serving a full page of 50 records and then a
page of 10 records, with page size 50 and no page limit, yields all 60
records in order and exactly 2 page requests -- no third page is asked
for. -/
theorem C3_extract_all_stop_conditions_witness :
    MisaExtractor.extract_all_data_from_endpoint
      (fun q => if q = 0 then some ⟨some (List.range 50)⟩
                else some ⟨some ((List.range 10).map (fun n => n + 50))⟩)
      50 none 9 =
      (List.range 50 ++ (List.range 10).map (fun n => n + 50), 2) := by
  have h := C3_extract_all_stop_conditions
    (fun q => if q = 0 then some ⟨some (List.range 50)⟩
              else some ⟨some ((List.range 10).map (fun n => n + 50))⟩)
    50 none [List.range 50] 9 (by decide)
    (by
      intro i b hb
      match i with
      | 0 =>
        refine ⟨?_, ?_, rfl⟩
        · simp at hb
          rw [← hb]
          rfl
        · simp at hb
          rw [← hb]
          decide
      | i + 1 => simp at hb)
    (by decide)
  have h2 := (h.2 rfl).2.2.2 ((List.range 10).map (fun n => n + 50))
    rfl (by decide) (by decide)
  rw [h2]
  decide

namespace MisaExtractor

theorem retryLoop_all_fail (outcomes : Nat → ReqOutcome) :
    ∀ (fuel attempt : Nat),
      (∀ j, attempt ≤ j → j < attempt + fuel →
        outcomes j = ReqOutcome.requestExc ∨
          outcomes j = ReqOutcome.http401) →
      retryLoop outcomes fuel attempt =
        (none, fuel, count401 outcomes attempt fuel) := by
  intro fuel
  induction fuel with
  | zero => intro attempt _; rfl
  | succ f ih =>
    intro attempt h
    have hcur := h attempt (le_refl attempt) (by omega)
    have hrest : ∀ j, attempt + 1 ≤ j → j < (attempt + 1) + f →
        outcomes j = ReqOutcome.requestExc ∨
          outcomes j = ReqOutcome.http401 := by
      intro j h1 h2
      exact h j (by omega) (by omega)
    rcases hcur with hcur | hcur
    · simp only [retryLoop, hcur, ih (attempt + 1) hrest, count401]
      simp
    · simp only [retryLoop, hcur, ih (attempt + 1) hrest, count401]
      simp [Nat.add_comm]

theorem retryLoop_success_after (outcomes : Nat → ReqOutcome) :
    ∀ (k fuel attempt : Nat),
      (∀ j, attempt ≤ j → j < attempt + k →
        outcomes j = ReqOutcome.requestExc ∨
          outcomes j = ReqOutcome.http401) →
      outcomes (attempt + k) = ReqOutcome.success →
      k < fuel →
      retryLoop outcomes fuel attempt =
        (some (attempt + k), k + 1, count401 outcomes attempt k) := by
  intro k
  induction k with
  | zero =>
    intro fuel attempt _ hsucc hfuel
    match fuel with
    | 0 => omega
    | f + 1 =>
      simp only [Nat.add_zero] at hsucc
      simp only [retryLoop, hsucc, count401]
      simp
  | succ k ih =>
    intro fuel attempt h hsucc hfuel
    match fuel with
    | 0 => omega
    | f + 1 =>
      have hcur := h attempt (le_refl attempt) (by omega)
      have hrest : ∀ j, attempt + 1 ≤ j → j < (attempt + 1) + k →
          outcomes j = ReqOutcome.requestExc ∨
            outcomes j = ReqOutcome.http401 := by
        intro j h1 h2
        exact h j (by omega) (by omega)
      have hsucc2 : outcomes ((attempt + 1) + k) = ReqOutcome.success := by
        have harith : (attempt + 1) + k = attempt + (k + 1) := by omega
        rw [harith]
        exact hsucc
      have hrec := ih f (attempt + 1) hrest hsucc2 (by omega)
      have harith2 : (attempt + 1) + k = attempt + (k + 1) := by omega
      rcases hcur with hcur | hcur
      · simp only [retryLoop, hcur, hrec, harith2, count401]
        simp
      · simp only [retryLoop, hcur, hrec, harith2, count401]
        simp [Nat.add_comm]

theorem retryLoop_immediate_other (outcomes : Nat → ReqOutcome)
    (code fuel : Nat) (h : outcomes 0 = ReqOutcome.httpOther code) :
    retryLoop outcomes (fuel + 1) 0 = (none, 1, 0) := by
  simp only [retryLoop, h]

end MisaExtractor

/-- C7 counterexample: the claim that a 401 triggers one retry without
consuming a backoff/retry slot and that repeated authorization failure
fails with a distinct `AuthError` is false.  With 3 configured attempts and
outcomes 401, transient, transient, success: the loop returns `None` after
exactly 3 requests -- the success available at the 4th request is never
attempted, so the 401 consumed a retry slot.  With all-401 outcomes the loop
refreshes and retries 3 times (not once) and returns the same `None` a
transient exhaustion returns -- no distinct authorization failure exists. -/
theorem C7_counterexample :
    (MisaExtractor._make_request_with_retry
        (fun i => if i = 0 then MisaExtractor.ReqOutcome.http401
                  else if i = 3 then MisaExtractor.ReqOutcome.success
                  else MisaExtractor.ReqOutcome.requestExc) 3
      = (none, 3, 1))
    ∧ (MisaExtractor._make_request_with_retry
        (fun i => if i = 0 then MisaExtractor.ReqOutcome.http401
                  else if i = 3 then MisaExtractor.ReqOutcome.success
                  else MisaExtractor.ReqOutcome.requestExc) 3).1 = none
    ∧ (MisaExtractor._make_request_with_retry
        (fun _ => MisaExtractor.ReqOutcome.http401) 3 = (none, 3, 3))
    ∧ ((MisaExtractor._make_request_with_retry
        (fun _ => MisaExtractor.ReqOutcome.http401) 3).1 =
      (MisaExtractor._make_request_with_retry
        (fun _ => MisaExtractor.ReqOutcome.requestExc) 3).1) := by
  refine ⟨by decide, by decide, by decide, by decide⟩

/-- C7 amended: a transient failure (network exception) is retried up to the
configured number of attempts with backoff, so that a success on a later
attempt is returned without raising; an HTTP 401 triggers a forced
credential refresh and a retry, but the retry consumes one of the same
attempts; when failures (including 401s) persist through all attempts the
call returns `None`, with no result distinct from transient exhaustion; any
other HTTP status returns `None` immediately without retrying. -/
theorem C7_retry_behaviour (outcomes : Nat → MisaExtractor.ReqOutcome)
    (n : Nat) :
    (∀ k, k < n →
      (∀ j, j < k → outcomes j = MisaExtractor.ReqOutcome.requestExc ∨
          outcomes j = MisaExtractor.ReqOutcome.http401) →
      outcomes k = MisaExtractor.ReqOutcome.success →
      MisaExtractor._make_request_with_retry outcomes n =
        (some k, k + 1, MisaExtractor.count401 outcomes 0 k))
    ∧ ((∀ j, j < n → outcomes j = MisaExtractor.ReqOutcome.requestExc ∨
          outcomes j = MisaExtractor.ReqOutcome.http401) →
        MisaExtractor._make_request_with_retry outcomes n =
          (none, n, MisaExtractor.count401 outcomes 0 n))
    ∧ (∀ code m, n = m + 1 →
        outcomes 0 = MisaExtractor.ReqOutcome.httpOther code →
        MisaExtractor._make_request_with_retry outcomes n = (none, 1, 0)) := by
  refine ⟨?_, ?_, ?_⟩
  · intro k hk hfail hsucc
    unfold MisaExtractor._make_request_with_retry
    have h := MisaExtractor.retryLoop_success_after outcomes k n 0
      (by intro j h1 h2; exact hfail j (by omega))
      (by simpa using hsucc) hk
    simpa using h
  · intro hfail
    unfold MisaExtractor._make_request_with_retry
    exact MisaExtractor.retryLoop_all_fail outcomes n 0
      (by intro j h1 h2; exact hfail j (by omega))
  · intro code m hm hother
    unfold MisaExtractor._make_request_with_retry
    rw [hm]
    exact MisaExtractor.retryLoop_immediate_other outcomes code m hother

/-- Witness for the amended C7: with transient failures on the first two of
three attempts and a success on the third, the call returns the third
attempt's response after exactly 3 requests and no forced refresh. -/
theorem C7_retry_behaviour_witness :
    MisaExtractor._make_request_with_retry
      (fun i => if i = 2 then MisaExtractor.ReqOutcome.success
                else MisaExtractor.ReqOutcome.requestExc) 3 =
      (some 2, 3, 0) := by
  have h := (C7_retry_behaviour
    (fun i => if i = 2 then MisaExtractor.ReqOutcome.success
              else MisaExtractor.ReqOutcome.requestExc) 3).1
  have h2 := h 2 (by decide)
    (by decide)
    (by decide)
  rw [h2]
  decide

/-- C8 counterexample: a non-auth failure persisting through all retries
does not surface as an error.  With page size 2, a full first page and a
second page whose every request attempt raises, `extract_all` returns the
first page's records in a success-shaped result -- byte for byte the output
of a source whose data genuinely ends after the first page -- so the failure
is swallowed and indistinguishable from success. -/
theorem C8_counterexample :
    (MisaExtractor.extract_all_data_from_endpoint
      (MisaExtractor.extractEndpointFetch
        (fun page _ => if page = 0 then MisaExtractor.ReqOutcome.success
                       else MisaExtractor.ReqOutcome.requestExc)
        (fun _ => ⟨some [10, 11]⟩) 3) 2 none 9
      = ([10, 11], 2))
    ∧ (MisaExtractor.extract_all_data_from_endpoint
        (MisaExtractor.extractEndpointFetch
          (fun page _ => if page = 0 then MisaExtractor.ReqOutcome.success
                         else MisaExtractor.ReqOutcome.requestExc)
          (fun _ => ⟨some [10, 11]⟩) 3) 2 none 9
      = MisaExtractor.extract_all_data_from_endpoint
          (fun q => if q = 0 then some ⟨some [10, 11]⟩ else some ⟨some []⟩)
          2 none 9) := by
  refine ⟨by decide, by decide⟩

/-- C8 amended: when every request attempt for a page fails with a non-auth
transient error, the retries are exhausted, `extract_endpoint_data` yields
`None`, and `extract_all_data_from_endpoint` treats that page exactly like
the end of the data: it stops paging for that endpoint and returns the
records accumulated so far, identically to a source whose `data` list is
empty at that page.  No error indication is produced. -/
theorem C8_retry_exhaustion_swallowed {α : Type}
    (outcomes : Nat → Nat → MisaExtractor.ReqOutcome)
    (pages : Nat → MisaExtractor.ApiResponse α)
    (retryAttempts pageSize : Nat) (maxPages : Option Nat)
    (bs : List (List α)) (fuel : Nat) (hpos : 0 < pageSize)
    (hfull : ∀ i b, bs[i]? = some b →
        MisaExtractor.extractEndpointFetch outcomes pages retryAttempts i =
          some ⟨some b⟩ ∧
        b.length = pageSize ∧ MisaExtractor.maxPagesHit maxPages i = false)
    (hmax : MisaExtractor.maxPagesHit maxPages bs.length = false)
    (hfail : ∀ j, j < retryAttempts →
        outcomes bs.length j = MisaExtractor.ReqOutcome.requestExc)
    (hfuel : bs.length < fuel) :
    MisaExtractor.extract_all_data_from_endpoint
        (MisaExtractor.extractEndpointFetch outcomes pages retryAttempts)
        pageSize maxPages fuel = (bs.flatten, bs.length + 1)
    ∧ ∀ fetch2 : Nat → Option (MisaExtractor.ApiResponse α),
        (∀ i b, bs[i]? = some b → fetch2 i = some ⟨some b⟩ ∧
            b.length = pageSize ∧
            MisaExtractor.maxPagesHit maxPages i = false) →
        fetch2 bs.length = some ⟨some []⟩ →
        MisaExtractor.extract_all_data_from_endpoint fetch2 pageSize maxPages
            fuel =
          MisaExtractor.extract_all_data_from_endpoint
            (MisaExtractor.extractEndpointFetch outcomes pages retryAttempts)
            pageSize maxPages fuel := by
  have hnone : MisaExtractor.extractEndpointFetch outcomes pages retryAttempts
      bs.length = none := by
    unfold MisaExtractor.extractEndpointFetch
      MisaExtractor._make_request_with_retry
    rw [MisaExtractor.retryLoop_all_fail (outcomes bs.length) retryAttempts 0
      (by intro j h1 h2; exact Or.inl (hfail j (by omega)))]
  have hsplit : fuel = (fuel - bs.length - 1 + 1) + bs.length := by omega
  have hmain : MisaExtractor.extract_all_data_from_endpoint
      (MisaExtractor.extractEndpointFetch outcomes pages retryAttempts)
      pageSize maxPages fuel = (bs.flatten, bs.length + 1) := by
    have haux := MisaExtractor.extractAllLoop_full_prefix
      (MisaExtractor.extractEndpointFetch outcomes pages retryAttempts)
      pageSize maxPages hpos bs (fuel - bs.length - 1 + 1) 0 []
      (by intro i b hb; simpa using hfull i b hb)
    unfold MisaExtractor.extract_all_data_from_endpoint
    rw [hsplit, haux]
    simp only [Nat.zero_add, List.nil_append]
    rw [MisaExtractor.extractAllLoop_stop_fail _ pageSize maxPages
      _ _ _ hmax hnone]
    simp [Nat.add_comm]
  refine ⟨hmain, ?_⟩
  intro fetch2 hfull2 hempty2
  have haux2 := MisaExtractor.extractAllLoop_full_prefix fetch2
    pageSize maxPages hpos bs (fuel - bs.length - 1 + 1) 0 []
    (by intro i b hb; simpa using hfull2 i b hb)
  rw [hmain]
  unfold MisaExtractor.extract_all_data_from_endpoint
  rw [hsplit, haux2]
  simp only [Nat.zero_add, List.nil_append]
  rw [MisaExtractor.extractAllLoop_stop_empty _ pageSize maxPages
    _ _ _ hmax hempty2]
  simp [Nat.add_comm]

/-- Witness for the amended C8 at a concrete input: one full page of two
records, then a page failing all three attempts, with no page limit. -/
theorem C8_retry_exhaustion_swallowed_witness :
    MisaExtractor.extract_all_data_from_endpoint
      (MisaExtractor.extractEndpointFetch
        (fun page _ => if page = 0 then MisaExtractor.ReqOutcome.success
                       else MisaExtractor.ReqOutcome.requestExc)
        (fun _ => ⟨some [10, 11]⟩) 3) 2 none 9 = ([10, 11], 2) := by
  have h := C8_retry_exhaustion_swallowed
    (fun page _ => if page = 0 then MisaExtractor.ReqOutcome.success
                   else MisaExtractor.ReqOutcome.requestExc)
    (fun _ => ⟨some [10, 11]⟩) 3 2 none [[10, 11]] 9 (by decide)
    (by
      intro i b hb
      match i with
      | 0 =>
        simp at hb
        refine ⟨?_, ?_, rfl⟩
        · rw [← hb]; decide
        · rw [← hb]; decide
      | i + 1 => simp at hb)
    rfl
    (by intro j hj; rfl)
    (by decide)
  have h2 := h.1
  simpa using h2

namespace MisaExtractor

theorem keepRecord_iff (parseDate : String → Option Int) (cutoff : Int)
    (r : Row) :
    keepRecord parseDate cutoff r = true ↔
      (∀ t, modifiedTimestamp parseDate r = some t → cutoff ≤ t) := by
  unfold keepRecord modifiedTimestamp
  cases hv : dictGet "modified_date" r with
  | null => simp [truthyVal]
  | num n => by_cases hn : n = 0 <;> simp [truthyVal, hn]
  | bool b => cases b <;> simp [truthyVal]
  | str s =>
    by_cases hs : s.isEmpty
    · simp [truthyVal, hs]
    · simp only [truthyVal, hs, Bool.not_false, if_true, if_pos]
      cases hp : parseDate (replaceZ s) with
      | none => simp
      | some t0 =>
        constructor
        · intro h t ht
          simp at ht
          rw [← ht]
          simpa using h
        · intro h
          simpa using h t0 rfl

end MisaExtractor

/-- C5: incremental extraction returns exactly the extracted records whose
parsed last-modified timestamp is at or after `now - lookback`, together
with every record whose modification timestamp is absent, falsy, non-string
or unparseable (fail-open: such records are always kept). -/
theorem C5_incremental_filter (fetch : Nat → Option (MisaExtractor.ApiResponse Row))
    (pageSize : Nat) (parseDate : String → Option Int)
    (now lookbackHours : Int) (fuel : Nat) (r : Row) :
    r ∈ MisaExtractor.extract_incremental_data fetch pageSize parseDate now
        lookbackHours fuel ↔
      r ∈ (MisaExtractor.extractAllLoop fetch pageSize (some 10) fuel 0 []).1
      ∧ (∀ t, MisaExtractor.modifiedTimestamp parseDate r = some t →
          now - lookbackHours * 3600 ≤ t) := by
  unfold MisaExtractor.extract_incremental_data
  by_cases hempty :
    (MisaExtractor.extractAllLoop fetch pageSize (some 10) fuel 0 []).1.isEmpty
  · rw [if_pos hempty]
    rw [List.isEmpty_iff] at hempty
    rw [hempty]
    simp
  · rw [if_neg hempty, List.mem_filter]
    exact and_congr_right fun _ =>
      MisaExtractor.keepRecord_iff parseDate (now - lookbackHours * 3600) r

/-- Witness for C5 at a concrete input: one short page with three records --
one stale (timestamp 100, below the cutoff 1000), one recent (timestamp
5000), one with no `modified_date` at all.  The stale record is dropped; the
recent one and the fail-open one are returned. -/
theorem C5_incremental_filter_witness :
    ([("modified_date", FieldVal.str "X")] : Row) ∉
      MisaExtractor.extract_incremental_data
        (fun _ => some ⟨some [[("modified_date", FieldVal.str "X")],
                             [("modified_date", FieldVal.str "Y")],
                             [("name", FieldVal.str "n")]]⟩)
        50
        (fun s => if s = "X" then some 100
                  else if s = "Y" then some 5000 else none)
        1000 0 9
    ∧ ([("modified_date", FieldVal.str "Y")] : Row) ∈
      MisaExtractor.extract_incremental_data
        (fun _ => some ⟨some [[("modified_date", FieldVal.str "X")],
                             [("modified_date", FieldVal.str "Y")],
                             [("name", FieldVal.str "n")]]⟩)
        50
        (fun s => if s = "X" then some 100
                  else if s = "Y" then some 5000 else none)
        1000 0 9
    ∧ ([("name", FieldVal.str "n")] : Row) ∈
      MisaExtractor.extract_incremental_data
        (fun _ => some ⟨some [[("modified_date", FieldVal.str "X")],
                             [("modified_date", FieldVal.str "Y")],
                             [("name", FieldVal.str "n")]]⟩)
        50
        (fun s => if s = "X" then some 100
                  else if s = "Y" then some 5000 else none)
        1000 0 9 := by
  refine ⟨?_, ?_, ?_⟩
  · intro hmem
    obtain ⟨_, hts⟩ := (C5_incremental_filter _ 50 _ 1000 0 9 _).mp hmem
    have h100 := hts 100 (by decide)
    exact absurd h100 (by decide)
  · refine (C5_incremental_filter _ 50 _ 1000 0 9 _).mpr ⟨by decide, ?_⟩
    intro t ht
    have ht2 : some (5000 : Int) = some t := by
      rw [← ht]
      decide
    rw [Option.some.injEq] at ht2
    rw [← ht2]
    decide
  · refine (C5_incremental_filter _ 50 _ 1000 0 9 _).mpr ⟨by decide, ?_⟩
    intro t ht
    have hcontra : (none : Option Int) = some t := by
      rw [← ht]
      decide
    exact Option.noConfusion hcontra

/-- C6: whenever the cached credential's remaining lifetime exceeds the
refresh buffer and `force_refresh` is false, `get_access_token` returns the
cached token without any network call; whenever the cache is absent or the
remaining lifetime is within the buffer (including negative), it performs
exactly one refresh round trip, caches the refreshed credential with its
decoded expiry, and returns it. -/
theorem C6_token_cache_and_refresh (decodeExp : String → Option Int)
    (now buffer : Int) (net : MisaExtractor.TokenResponse)
    (st : MisaExtractor.TokenState) :
    (∀ tok exp, st.accessToken = some tok → tok ≠ "" →
      st.tokenExpiresAt = some exp → now + buffer < exp →
      MisaExtractor.get_access_token decodeExp now buffer net st false =
        (some tok, st, 0))
    ∧ (∀ newTok, MisaExtractor._is_token_expired st now buffer = true →
        net = MisaExtractor.TokenResponse.ok newTok →
        MisaExtractor.get_access_token decodeExp now buffer net st false =
          (some newTok,
           ⟨some newTok,
            some (MisaExtractor._decode_token_expiry decodeExp now newTok)⟩,
           1)) := by
  constructor
  · intro tok exp htok htokne hexp hlt
    have hvalid : MisaExtractor._is_token_expired st now buffer = false := by
      unfold MisaExtractor._is_token_expired
      rw [htok, hexp]
      simp only [Option.getD_some]
      rw [if_neg (by simp [String.isEmpty_iff, htokne])]
      simp [not_le.mpr hlt]
    unfold MisaExtractor.get_access_token
    rw [hvalid]
    simp [htok]
  · intro newTok hexpired hnet
    unfold MisaExtractor.get_access_token
    rw [hexpired, hnet]
    simp

/-- Witness for C6: a cached token with 1000 seconds of lifetime left and a
300 second buffer is returned with zero network calls; a cached token whose
expiry is already in the past (negative remaining lifetime) triggers exactly
one refresh, which caches and returns the fresh token with its decoded
expiry. -/
theorem C6_token_cache_and_refresh_witness :
    (MisaExtractor.get_access_token (fun _ => some 9999) 0 300
        (MisaExtractor.TokenResponse.ok "new")
        ⟨some "cached", some 1000⟩ false =
      (some "cached", ⟨some "cached", some 1000⟩, 0))
    ∧ (MisaExtractor.get_access_token (fun _ => some 9999) 0 300
        (MisaExtractor.TokenResponse.ok "new")
        ⟨some "cached", some (-5)⟩ false =
      (some "new", ⟨some "new", some 9999⟩, 1)) := by
  constructor
  · exact (C6_token_cache_and_refresh (fun _ => some 9999) 0 300
      (MisaExtractor.TokenResponse.ok "new") ⟨some "cached", some 1000⟩).1
      "cached" 1000 rfl (by decide) rfl (by decide)
  · have h := (C6_token_cache_and_refresh (fun _ => some 9999) 0 300
      (MisaExtractor.TokenResponse.ok "new") ⟨some "cached", some (-5)⟩).2
      "new" (by decide) rfl
    rw [h]
    rfl

namespace Orchestrator

theorem processEndpoint_exc (b : EndpointBehavior) (m : String)
    (h : pipelineException b = some m) :
    processEndpoint b = ⟨Status.error, 0, 0, 0, some m⟩ := by
  unfold pipelineException at h
  unfold processEndpoint
  cases hex : b.extractResult with
  | exc m2 =>
    simp only [hex] at h ⊢
    simp only [Option.some.injEq] at h
    rw [h]
  | ok raw =>
    simp only [hex] at h ⊢
    by_cases hr : raw.isEmpty = true
    · simp only [hr, if_true] at h
      exact Option.noConfusion h
    · rw [if_neg hr] at h ⊢
      cases htr : b.transformResult with
      | exc m2 =>
        simp only [htr, Option.some.injEq] at h
        simp only [htr]
        rw [h]
      | ok rows =>
        simp only [htr] at h ⊢
        cases hld : b.loadResult with
        | exc m2 =>
          simp only [hld, Option.some.injEq] at h
          simp only [hld]
          rw [h]
        | ok flag =>
          simp only [hld] at h
          exact Option.noConfusion h

theorem processEndpoint_records_if (b : EndpointBehavior) :
    (processEndpoint b).records =
      if (processEndpoint b).status = Status.success
      then (processEndpoint b).records else 0 := by
  unfold processEndpoint
  cases hex : b.extractResult with
  | exc m => simp
  | ok raw =>
    by_cases hr : raw.isEmpty
    · simp [hr]
    · cases htr : b.transformResult with
      | exc m => simp [hr]
      | ok rows =>
        cases hld : b.loadResult with
        | exc m => simp [hr]
        | ok flag => cases flag <;> simp [hr]

theorem processTikTokShop_records_if (b : EndpointBehavior) :
    (processTikTokShop b).records =
      if (processTikTokShop b).status = Status.success
      then (processTikTokShop b).records else 0 := by
  unfold processTikTokShop
  cases hex : b.extractResult with
  | exc m => simp
  | ok raw =>
    by_cases hr : raw.isEmpty
    · simp [hr]
    · cases htr : b.transformResult with
      | exc m => simp [hr]
      | ok rows =>
        cases hld : b.loadResult with
        | exc m => simp [hr]
        | ok flag => cases flag <;> simp [hr]

theorem processEndpoint_no_load_failed (b : EndpointBehavior) :
    (processEndpoint b).status ≠ Status.load_failed := by
  unfold processEndpoint
  cases hex : b.extractResult with
  | exc m => simp
  | ok raw =>
    by_cases hr : raw.isEmpty
    · simp [hr]
    · cases htr : b.transformResult with
      | exc m => simp [hr]
      | ok rows =>
        cases hld : b.loadResult with
        | exc m => simp [hr]
        | ok flag => cases flag <;> simp [hr]

end Orchestrator

/-- C2: every endpoint in a cycle is processed even when others raise: the
result carries one entry per configured endpoint in priority order; an
exception anywhere in an endpoint's extract/transform/load pipeline is
recorded as that endpoint's status `error` with zero records and the
exception message; and the cycle's `total_records` is the sum of the record
counts of successfully loaded endpoints only -- every non-success endpoint
contributes zero. -/
theorem C2_endpoint_failure_isolation
    (env : String → Orchestrator.EndpointBehavior)
    (tb : Orchestrator.EndpointBehavior) :
    ((Orchestrator.processMisaEndpoints env).map Prod.fst =
      ["sale_orders", "customers", "contacts", "stocks", "products"])
    ∧ (∀ name r, (name, r) ∈ Orchestrator.processMisaEndpoints env →
        ∀ m, Orchestrator.pipelineException (env name) = some m →
          r.status = Orchestrator.Status.error ∧ r.records = 0 ∧
            r.errorMsg = some m)
    ∧ (Orchestrator._calculate_total_records
          (Orchestrator.processMisaEndpoints env)
          (Orchestrator.processTikTokShop tb) =
        ((Orchestrator.processMisaEndpoints env).map (fun p =>
            if p.2.status = Orchestrator.Status.success then p.2.records
            else 0)).sum
          + (if (Orchestrator.processTikTokShop tb).status =
                Orchestrator.Status.success
             then (Orchestrator.processTikTokShop tb).records else 0)) := by
  refine ⟨rfl, ?_, ?_⟩
  · intro name r hmem m hexc
    unfold Orchestrator.processMisaEndpoints at hmem
    rw [List.mem_map] at hmem
    obtain ⟨e, _, he⟩ := hmem
    rw [Prod.mk.injEq] at he
    obtain ⟨hname, hr⟩ := he
    subst hname
    rw [← hr]
    rw [Orchestrator.processEndpoint_exc (env e.name) m hexc]
    exact ⟨rfl, rfl, rfl⟩
  · unfold Orchestrator._calculate_total_records
    congr 1
    · congr 1
      unfold Orchestrator.processMisaEndpoints
      rw [List.map_map, List.map_map]
      apply List.map_congr_left
      intro e _
      exact Orchestrator.processEndpoint_records_if (env e.name)
    · exact Orchestrator.processTikTokShop_records_if tb

/-- Witness for C2 at the spec's end-to-end scenario C: `sale_orders` raises
during extraction while `customers` extracts 7 records, transforms 7 rows
and loads successfully; the other endpoints see no data and TikTok Shop
raises too.  The cycle still yields all five endpoint entries, marks
`sale_orders` as `error` with the message, and `total_records` is exactly
the 7 records of the one successful endpoint. -/
theorem C2_endpoint_failure_isolation_witness :
    ((Orchestrator.processMisaEndpoints (fun name =>
        if name = "sale_orders" then
          ⟨Orchestrator.StageResult.exc "boom",
           Orchestrator.StageResult.ok [], Orchestrator.StageResult.ok true⟩
        else if name = "customers" then
          ⟨Orchestrator.StageResult.ok [(), (), (), (), (), (), ()],
           Orchestrator.StageResult.ok [(), (), (), (), (), (), ()],
           Orchestrator.StageResult.ok true⟩
        else
          ⟨Orchestrator.StageResult.ok [], Orchestrator.StageResult.ok [],
           Orchestrator.StageResult.ok true⟩)).map Prod.fst =
      ["sale_orders", "customers", "contacts", "stocks", "products"])
    ∧ (∀ r, ("sale_orders", r) ∈ Orchestrator.processMisaEndpoints
        (fun name =>
          if name = "sale_orders" then
            ⟨Orchestrator.StageResult.exc "boom",
             Orchestrator.StageResult.ok [], Orchestrator.StageResult.ok true⟩
          else if name = "customers" then
            ⟨Orchestrator.StageResult.ok [(), (), (), (), (), (), ()],
             Orchestrator.StageResult.ok [(), (), (), (), (), (), ()],
             Orchestrator.StageResult.ok true⟩
          else
            ⟨Orchestrator.StageResult.ok [], Orchestrator.StageResult.ok [],
             Orchestrator.StageResult.ok true⟩) →
        r.status = Orchestrator.Status.error ∧ r.records = 0 ∧
          r.errorMsg = some "boom")
    ∧ Orchestrator._calculate_total_records
        (Orchestrator.processMisaEndpoints (fun name =>
          if name = "sale_orders" then
            ⟨Orchestrator.StageResult.exc "boom",
             Orchestrator.StageResult.ok [], Orchestrator.StageResult.ok true⟩
          else if name = "customers" then
            ⟨Orchestrator.StageResult.ok [(), (), (), (), (), (), ()],
             Orchestrator.StageResult.ok [(), (), (), (), (), (), ()],
             Orchestrator.StageResult.ok true⟩
          else
            ⟨Orchestrator.StageResult.ok [], Orchestrator.StageResult.ok [],
             Orchestrator.StageResult.ok true⟩))
        (Orchestrator.processTikTokShop
          ⟨Orchestrator.StageResult.exc "tiktok down",
           Orchestrator.StageResult.ok [], Orchestrator.StageResult.ok true⟩)
      = 7 := by
  obtain ⟨h1, h2, h3⟩ := C2_endpoint_failure_isolation (fun name =>
    if name = "sale_orders" then
      ⟨Orchestrator.StageResult.exc "boom",
       Orchestrator.StageResult.ok [], Orchestrator.StageResult.ok true⟩
    else if name = "customers" then
      ⟨Orchestrator.StageResult.ok [(), (), (), (), (), (), ()],
       Orchestrator.StageResult.ok [(), (), (), (), (), (), ()],
       Orchestrator.StageResult.ok true⟩
    else
      ⟨Orchestrator.StageResult.ok [], Orchestrator.StageResult.ok [],
       Orchestrator.StageResult.ok true⟩)
    ⟨Orchestrator.StageResult.exc "tiktok down",
     Orchestrator.StageResult.ok [], Orchestrator.StageResult.ok true⟩
  refine ⟨h1, ?_, ?_⟩
  · intro r hr
    exact h2 "sale_orders" r hr "boom" rfl
  · rw [h3]
    rfl

/-- C9 (implicit): whenever the loader reports failure for a MISA endpoint's
load -- whatever the cause -- the orchestrator records that endpoint with
status `duplicate_skipped` and zero loaded records and continues the cycle;
no MISA load failure is ever recorded under a distinct load-error status
(`load_failed` is unreachable for MISA endpoints). -/
theorem C9_misa_load_failure_duplicate_skipped :
    (∀ b : Orchestrator.EndpointBehavior, ∀ raw rows,
      b.extractResult = Orchestrator.StageResult.ok raw → raw ≠ [] →
      b.transformResult = Orchestrator.StageResult.ok rows →
      b.loadResult = Orchestrator.StageResult.ok false →
      Orchestrator.processEndpoint b =
        ⟨Orchestrator.Status.duplicate_skipped, 0, raw.length, rows.length,
         none⟩)
    ∧ (∀ b : Orchestrator.EndpointBehavior,
        (Orchestrator.processEndpoint b).status ≠
          Orchestrator.Status.load_failed)
    ∧ (∀ env, (Orchestrator.processMisaEndpoints env).map Prod.fst =
        ["sale_orders", "customers", "contacts", "stocks", "products"]) := by
  refine ⟨?_, Orchestrator.processEndpoint_no_load_failed, fun env => rfl⟩
  intro b raw rows hex hraw htr hld
  unfold Orchestrator.processEndpoint
  simp only [hex, htr, hld]
  rw [if_neg (by simp [List.isEmpty_iff, hraw])]

/-- Witness for C9: an endpoint that extracts two records, transforms two
rows, and whose loader returns failure is recorded as `duplicate_skipped`
with zero records. -/
theorem C9_misa_load_failure_duplicate_skipped_witness :
    Orchestrator.processEndpoint
      ⟨Orchestrator.StageResult.ok [(), ()],
       Orchestrator.StageResult.ok [(), ()],
       Orchestrator.StageResult.ok false⟩ =
      ⟨Orchestrator.Status.duplicate_skipped, 0, 2, 2, none⟩ := by
  have h := C9_misa_load_failure_duplicate_skipped.1
    ⟨Orchestrator.StageResult.ok [(), ()],
     Orchestrator.StageResult.ok [(), ()],
     Orchestrator.StageResult.ok false⟩
    [(), ()] [(), ()] rfl (by decide) rfl rfl
  exact h

/-- C4 counterexample: the transformer's `validate_dataframe` does not
return false on a null primary key.  A one-row frame whose `order_id` is
null (and which has the required columns) passes the transformer's validate
with `True`; the null is only logged as a warning. -/
theorem C4_counterexample :
    TikTokTransformer.validate_dataframe
      ⟨["order_id", "etl_batch_id"],
       [[("order_id", FieldVal.null), ("etl_batch_id", FieldVal.str "b")]]⟩
      = true
    ∧ 0 < nullCount "order_id"
      ⟨["order_id", "etl_batch_id"],
       [[("order_id", FieldVal.null),
         ("etl_batch_id", FieldVal.str "b")]]⟩ := by
  refine ⟨by decide, by decide⟩

/-- C4 amended: a row set containing a null primary key fails validation in
the loader's `_validate_dataframe` (which returns false), not in the
transformer's `validate_dataframe` -- the latter only logs a warning and
returns true whenever the frame is non-empty and the required columns are
present. -/
theorem C4_null_pk_validation (df : DataFrame) :
    ((∃ r ∈ df.rows, dictGet "order_id" r = FieldVal.null) →
      TikTokLoader._validate_dataframe df = false)
    ∧ (¬df.rows.isEmpty = true → "order_id" ∈ df.columns →
        "etl_batch_id" ∈ df.columns →
        TikTokTransformer.validate_dataframe df = true) := by
  constructor
  · rintro ⟨r, hr, hnull⟩
    have hcount : 0 < nullCount "order_id" df := by
      unfold nullCount
      rw [List.countP_pos_iff]
      exact ⟨r, hr, by simp [hnull]⟩
    unfold TikTokLoader._validate_dataframe
    by_cases hm : (["order_id", "etl_batch_id", "etl_created_at",
        "etl_updated_at"].filter
        (fun c => !(df.columns.contains c))).isEmpty
    · rw [if_neg (by rw [hm]; simp), if_pos hcount]
    · rw [if_pos (by simp [List.isEmpty_iff] at hm ⊢; exact hm)]
  · intro hrows h1 h2
    unfold TikTokTransformer.validate_dataframe
    rw [if_neg hrows]
    have hfilter : (["order_id", "etl_batch_id"].filter
        (fun c => !(df.columns.contains c))) = [] := by
      rw [List.filter_eq_nil_iff]
      intro c hc
      rcases List.mem_cons.mp hc with hc1 | hc1
      · subst hc1
        simp [h1]
      · rcases List.mem_cons.mp hc1 with hc2 | hc2
        · subst hc2
          simp [h2]
        · simp at hc2
    rw [hfilter]
    rfl

/-- Witness for the amended C4: on the same one-row frame with a null
`order_id`, the loader's validation returns false while the transformer's
returns true. -/
theorem C4_null_pk_validation_witness :
    TikTokLoader._validate_dataframe
      ⟨["order_id", "etl_batch_id", "etl_created_at", "etl_updated_at"],
       [[("order_id", FieldVal.null), ("etl_batch_id", FieldVal.str "b")]]⟩
      = false
    ∧ TikTokTransformer.validate_dataframe
      ⟨["order_id", "etl_batch_id", "etl_created_at", "etl_updated_at"],
       [[("order_id", FieldVal.null), ("etl_batch_id", FieldVal.str "b")]]⟩
      = true := by
  constructor
  · exact (C4_null_pk_validation
      ⟨["order_id", "etl_batch_id", "etl_created_at", "etl_updated_at"],
       [[("order_id", FieldVal.null),
         ("etl_batch_id", FieldVal.str "b")]]⟩).1
      ⟨[("order_id", FieldVal.null), ("etl_batch_id", FieldVal.str "b")],
       by decide, by decide⟩
  · exact (C4_null_pk_validation
      ⟨["order_id", "etl_batch_id", "etl_created_at", "etl_updated_at"],
       [[("order_id", FieldVal.null),
         ("etl_batch_id", FieldVal.str "b")]]⟩).2
      (by decide) (by decide) (by decide)

/-- C10 (implicit): a load invocation given an empty row set returns success
and issues no database write, for both the TikTok Shop loader (plain and
incremental entry points) and the MISA loader. -/
theorem C10_empty_load_is_noop (prepare : DataFrame → DataFrame)
    (df : DataFrame) (loadMode : String) (validateBeforeLoad : Bool)
    (truncateOk insertOk : Bool) (endpoint : String)
    (tableMappings : List (String × String)) (toSqlOk pyodbcOk : Bool) :
    (df.rows = [] →
      TikTokLoader.load_orders prepare df loadMode validateBeforeLoad
        truncateOk insertOk = (true, 0))
    ∧ (df.rows = [] →
      TikTokLoader.load_incremental_orders prepare df truncateOk insertOk =
        (true, 0))
    ∧ (df.rows = [] →
      MisaLoader.load_dataframe_to_staging df endpoint tableMappings toSqlOk
        pyodbcOk = (true, 0)) := by
  refine ⟨?_, ?_, ?_⟩
  · intro h
    unfold TikTokLoader.load_orders
    rw [if_pos (by simp [List.isEmpty_iff, h])]
  · intro h
    unfold TikTokLoader.load_incremental_orders
    rw [if_pos (by simp [List.isEmpty_iff, h])]
  · intro h
    unfold MisaLoader.load_dataframe_to_staging
    rw [if_pos (by simp [List.isEmpty_iff, h])]

/-- Witness for C10: loading an empty frame through each of the three entry
points succeeds with zero database writes. -/
theorem C10_empty_load_is_noop_witness :
    (TikTokLoader.load_orders id ⟨["order_id"], []⟩ "append" true true true =
      (true, 0))
    ∧ (TikTokLoader.load_incremental_orders id ⟨["order_id"], []⟩ true true =
      (true, 0))
    ∧ (MisaLoader.load_dataframe_to_staging ⟨["order_id"], []⟩ "customers"
        [("customers", "staging.misa_customers")] true true = (true, 0)) := by
  obtain ⟨h1, h2, h3⟩ := C10_empty_load_is_noop id ⟨["order_id"], []⟩
    "append" true true true "customers"
    [("customers", "staging.misa_customers")] true true
  exact ⟨h1 rfl, h2 rfl, h3 rfl⟩
